import Mathlib

/-!
# BGRLandmark: a verification development

A shallow embedding of `BGRLandmark.cpp` (detector of 2x2 colour-grid
landmarks) and theorems about it.

Conventions of the embedding.

* C++ `int` is `Int`; none of the quantities below comes near the 32-bit range
  (sizes are image sizes, `kdim` is railed to 9..15).
* `float` and `double` values are exact rationals (`ℚ`): rounding of the
  floating-point unit is not modelled.  Values that are integers in the code
  although their C++ type is `double` (the minimum and maximum of an 8-bit
  region) are kept as `Int`.
* A `cv::Mat` is its size together with a total pixel function; pixels outside
  `0 <= row < rows`, `0 <= col < cols` carry no meaning.  Operations of OpenCV
  that raise an exception (a region of interest that leaves the image, a size
  mismatch, an impossible template match) return `none`.
* OpenCV routines whose numeric result is floating-point signal processing
  (`matchTemplate`, `bilateralFilter`) take that result from a function
  argument: the theorems hold whatever these routines compute, unless they
  state a condition on it.  `ccoeff_normed` gives the correlation formula of
  `matchTemplate` in exact arithmetic for the examples that need its values.
-/

namespace BGRLandmark

/-! ## Data model -/

/-- A `cv::Mat`: `data r c` is the pixel at row `r`, column `c`. -/
structure Mat (α : Type) where
  rows : Int
  cols : Int
  data : Int → Int → α

/-- A `cv::Vec` / `cv::Scalar` with three channels, in the order B, G, R.
The fourth channel of a `cv::Scalar` plays no role for 3-channel images. -/
structure Vec3 (α : Type) where
  v0 : α
  v1 : α
  v2 : α
deriving DecidableEq

/-- A `cv::Point` (integer pixel coordinates). -/
structure Point where
  x : Int
  y : Int
deriving DecidableEq

/-- A `cv::Rect`: top-left corner, width and height. -/
structure Rect where
  x : Int
  y : Int
  width : Int
  height : Int
deriving DecidableEq

/-- Modelled from the spec: the colour enumeration `bgr_t` is declared in
`BGRLandmark.h`; its members index `BGR_COLORS`, whose rows are in this order. -/
inductive bgr_t where
  | BLACK | RED | GREEN | YELLOW | BLUE | MAGENTA | CYAN | WHITE
deriving DecidableEq

/-- Modelled from the spec: `grid_colors_t` is declared in `BGRLandmark.h`;
four colours, clockwise from the upper-left square, in the order `c00, c01, c11, c10`
in which the presets initialise them. -/
structure grid_colors_t where
  c00 : bgr_t
  c01 : bgr_t
  c11 : bgr_t
  c10 : bgr_t
deriving DecidableEq

/-- Modelled from the spec: `landmark_info_t` is declared in `BGRLandmark.h`;
the fields are in the order in which `perform_match` initialises them.  The
fields `diff`, `c0`, `c1` are named by the source, the other names are the
spec's. -/
structure landmark_info_t where
  position : Point
  diff : ℚ
  pixelRange : Int
  pixelMin : Int
  c0 : Int
  c1 : Int
deriving DecidableEq

/-- The state of a detector object (the data members that `init` sets). -/
structure State where
  kdim : Int
  thr_corr : ℚ
  thr_pix_rng : Int
  thr_pix_min : Int
  tmpl_gray_p : Mat Nat
  tmpl_gray_n : Mat Nat
  tmpl_offset : Point
  is_color_id_enabled : Bool

/-! ## Helpers and constants -/

/-- The template `apply_rail`: `v` railed to `[vmin, vmax]`. -/
def apply_rail {T : Type} [LT T] [DecidableRel (fun a b : T => a < b)]
    (v vmin vmax : T) : T :=
  if vmax < v then vmax else (if v < vmin then vmin else v)

/-- The table `BGR_COLORS`, indexed by `bgr_t`. -/
def BGR_COLORS : bgr_t → Vec3 ℚ
  | .BLACK => ⟨0, 0, 0⟩
  | .RED => ⟨0, 0, 255⟩
  | .GREEN => ⟨0, 255, 0⟩
  | .YELLOW => ⟨0, 255, 255⟩
  | .BLUE => ⟨255, 0, 0⟩
  | .MAGENTA => ⟨255, 0, 255⟩
  | .CYAN => ⟨255, 255, 0⟩
  | .WHITE => ⟨255, 255, 255⟩

def PATTERN_0 : grid_colors_t := ⟨.BLACK, .WHITE, .BLACK, .WHITE⟩
def PATTERN_1 : grid_colors_t := ⟨.WHITE, .BLACK, .WHITE, .BLACK⟩
def PATTERN_A : grid_colors_t := ⟨.BLACK, .YELLOW, .BLACK, .MAGENTA⟩
def PATTERN_B : grid_colors_t := ⟨.BLACK, .YELLOW, .BLACK, .CYAN⟩
def PATTERN_C : grid_colors_t := ⟨.BLACK, .MAGENTA, .BLACK, .YELLOW⟩
def PATTERN_D : grid_colors_t := ⟨.BLACK, .MAGENTA, .BLACK, .CYAN⟩
def PATTERN_E : grid_colors_t := ⟨.BLACK, .CYAN, .BLACK, .YELLOW⟩
def PATTERN_F : grid_colors_t := ⟨.BLACK, .CYAN, .BLACK, .MAGENTA⟩

/-! ## OpenCV drawing and conversion routines used by `init` -/

/-- The test `0 <= r < rows` and `0 <= c < cols`. -/
def Mat.inside {α : Type} (m : Mat α) (r c : Int) : Prop :=
  0 ≤ r ∧ r < m.rows ∧ 0 ≤ c ∧ c < m.cols

instance {α : Type} (m : Mat α) (r c : Int) : Decidable (m.inside r c) := by
  unfold Mat.inside; exact inferInstance

/-- `cv::Mat::zeros({w, h}, CV_8UC3)`. -/
def Mat.zeros (w h : Int) : Mat (Vec3 Nat) := ⟨h, w, fun _ _ => ⟨0, 0, 0⟩⟩

/-- `cvRound`: the nearest integer, halves going to the even neighbour. -/
def cvRound (v : ℚ) : Int :=
  let f : Int := Int.floor v
  let d : ℚ := v - f
  if d < 1 / 2 then f else if 1 / 2 < d then f + 1 else if f % 2 = 0 then f else f + 1

/-- `cv::saturate_cast<uchar>(double)`: round, then saturate to 0..255. -/
def saturate_cast_uchar (v : ℚ) : Nat :=
  let iv := cvRound v
  if iv < 0 then 0 else if 255 < iv then 255 else iv.toNat

/-- The pixel value a drawing routine writes for a `cv::Scalar` colour. -/
def scalarToRaw (s : Vec3 ℚ) : Vec3 Nat :=
  ⟨saturate_cast_uchar s.v0, saturate_cast_uchar s.v1, saturate_cast_uchar s.v2⟩

/-- `cv::rectangle(img, rec, color, -1)`: the filled rectangle `rec`, drawn
from `rec.tl()` to `rec.br() - (1,1)` inclusive; nothing for an empty `rec`. -/
def rectangle (img : Mat (Vec3 Nat)) (rec : Rect) (color : Vec3 ℚ) : Mat (Vec3 Nat) :=
  if 0 < rec.width ∧ 0 < rec.height then
    { img with data := fun r c =>
        if rec.x ≤ c ∧ c ≤ rec.x + rec.width - 1 ∧ rec.y ≤ r ∧ r ≤ rec.y + rec.height - 1
        then scalarToRaw color else img.data r c }
  else img

/-- `cv::line(img, pt1, pt2, color)` with thickness 1, for a horizontal or
vertical segment (the only ones the source draws): the run of pixels from
`pt1` to `pt2`, both included.  Slanted segments are not modelled. -/
def line (img : Mat (Vec3 Nat)) (pt1 pt2 : Point) (color : Vec3 ℚ) : Mat (Vec3 Nat) :=
  if pt1.x = pt2.x ∨ pt1.y = pt2.y then
    { img with data := fun r c =>
        if (min pt1.x pt2.x) ≤ c ∧ c ≤ (max pt1.x pt2.x) ∧ (min pt1.y pt2.y) ≤ r ∧ r ≤ (max pt1.y pt2.y)
        then scalarToRaw color else img.data r c }
  else img

/-- Channel-wise sum of two `cv::Scalar`s. -/
def Vec3.add (a b : Vec3 ℚ) : Vec3 ℚ := ⟨a.v0 + b.v0, a.v1 + b.v1, a.v2 + b.v2⟩

/-- Division of a `cv::Scalar` by a number. -/
def Vec3.divBy (a : Vec3 ℚ) (d : ℚ) : Vec3 ℚ := ⟨a.v0 / d, a.v1 / d, a.v2 / d⟩

/-- The static function `create_template_image`. -/
def create_template_image (k : Int) (rcolors : grid_colors_t) : Mat (Vec3 Nat) :=
  let kh := Int.tdiv k 2
  let colors0 := BGR_COLORS rcolors.c00
  let colors1 := BGR_COLORS rcolors.c01
  let colors2 := BGR_COLORS rcolors.c11
  let colors3 := BGR_COLORS rcolors.c10
  let rimg := Mat.zeros k k
  let rimg := rectangle rimg ⟨0, 0, kh, kh⟩ colors0
  let rimg := rectangle rimg ⟨kh + 1, 0, kh, kh⟩ colors1
  let rimg := rectangle rimg ⟨kh, kh, k - 1, k - 1⟩ colors2
  let rimg := rectangle rimg ⟨0, kh + 1, kh, kh⟩ colors3
  let avg_c00_c10 := (colors0.add colors1).divBy 2
  let avg_c10_c11 := (colors1.add colors2).divBy 2
  let avg_c11_c01 := (colors2.add colors3).divBy 2
  let avg_c01_c00 := (colors3.add colors0).divBy 2
  let rimg := line rimg ⟨kh, 0⟩ ⟨kh, kh⟩ avg_c00_c10
  let rimg := line rimg ⟨kh, kh⟩ ⟨k - 1, kh⟩ avg_c10_c11
  let rimg := line rimg ⟨kh, kh⟩ ⟨kh, k - 1⟩ avg_c11_c01
  let rimg := line rimg ⟨0, kh⟩ ⟨kh, kh⟩ avg_c01_c00
  let avg_all := (((colors0.add colors1).add colors2).add colors3).divBy 4
  line rimg ⟨kh, kh⟩ ⟨kh, kh⟩ avg_all

/-- `cv::cvtColor(src, dst, cv::COLOR_BGR2GRAY)` on 8-bit pixels: the
fixed-point weighted sum of OpenCV (weights 3735, 19235, 9798 over 2^15). -/
def cvtColor_BGR2GRAY (src : Mat (Vec3 Nat)) : Mat Nat :=
  ⟨src.rows, src.cols, fun r c =>
    let p := src.data r c
    (p.v0 * 3735 + p.v1 * 19235 + p.v2 * 9798 + 16384) / 32768⟩

/-- `cv::rotate(src, dst, cv::ROTATE_90_CLOCKWISE)`. -/
def rotate_90_clockwise {α : Type} (src : Mat α) : Mat α :=
  ⟨src.cols, src.rows, fun r c => src.data (src.rows - 1 - c) r⟩

/-- The member function `init`. -/
def init (k : Int) (thr_corr : ℚ) (thr_pix_rng thr_pix_min : Int) : State :=
  let fixk := (Int.tdiv k 2) * 2 + 1
  let kdim := apply_rail fixk 9 15
  let tmpl_bgr := create_template_image kdim PATTERN_0
  let tmpl_gray_p := cvtColor_BGR2GRAY tmpl_bgr
  let tmpl_gray_n := rotate_90_clockwise tmpl_gray_p
  let fixkh := Int.tdiv kdim 2
  { kdim := kdim
    thr_corr := thr_corr
    thr_pix_rng := thr_pix_rng
    thr_pix_min := thr_pix_min
    tmpl_gray_p := tmpl_gray_p
    tmpl_gray_n := tmpl_gray_n
    tmpl_offset := ⟨fixkh, fixkh⟩
    is_color_id_enabled := true }

/-! ## OpenCV routines used by `perform_match` -/

/-- `cv::matchTemplate(img, templ, result, cv::TM_CCOEFF_NORMED)`.  The result
has `(W - w + 1) x (H - h + 1)` pixels; when the image is smaller than the
template in some direction OpenCV swaps the two, and raises an error unless the
image is then nowhere larger than the template.  The correlation values are
floating-point library results, given here by `corr`. -/
def matchTemplate (corr : Mat Nat → Mat Nat → Int → Int → ℚ) (img templ : Mat Nat) :
    Option (Mat ℚ) :=
  if img.rows < templ.rows ∨ img.cols < templ.cols then
    if img.rows ≤ templ.rows ∧ img.cols ≤ templ.cols then
      some ⟨templ.rows - img.rows + 1, templ.cols - img.cols + 1, corr templ img⟩
    else none
  else some ⟨img.rows - templ.rows + 1, img.cols - templ.cols + 1, corr img templ⟩

/-- The matrix expression `a - b`; an error when the sizes differ. -/
def Mat.sub (a b : Mat ℚ) : Option (Mat ℚ) :=
  if a.rows = b.rows ∧ a.cols = b.cols then
    some ⟨a.rows, a.cols, fun r c => a.data r c - b.data r c⟩
  else none

/-- The matrix expression `abs(a)`. -/
def Mat.abs (a : Mat ℚ) : Mat ℚ := ⟨a.rows, a.cols, fun r c => |a.data r c|⟩

/-- The pixels of the 3 x 3 neighbourhood of `(r, c)` that lie inside `m`. -/
def neighbours {α : Type} (m : Mat α) (r c : Int) : List (Int × Int) :=
  (List.product [r - 1, r, r + 1] [c - 1, c, c + 1]).filter (fun p => decide (m.inside p.1 p.2))

/-- `cv::dilate(src, dst, cv::Mat())`: the maximum over the default 3 x 3
rectangular structuring element anchored at its centre; the default border
value makes pixels outside the image take no part in the maximum. -/
def dilate (m : Mat ℚ) : Mat ℚ :=
  ⟨m.rows, m.cols, fun r c =>
    (neighbours m r c).foldl (fun acc p => max acc (m.data p.1 p.2)) (m.data r c)⟩

/-- `cv::compare(a, b, dst, cv::CMP_GE)`: 255 where `a >= b`, else 0. -/
def compare_GE (a b : Mat ℚ) : Mat Nat :=
  ⟨a.rows, a.cols, fun r c => if b.data r c ≤ a.data r c then 255 else 0⟩

/-- The matrix expression `a > thr`: 255 where the pixel exceeds `thr`, else 0. -/
def Mat.gt (a : Mat ℚ) (thr : ℚ) : Mat Nat :=
  ⟨a.rows, a.cols, fun r c => if thr < a.data r c then 255 else 0⟩

/-- The matrix expression `a & b` on 8-bit masks. -/
def Mat.and (a b : Mat Nat) : Mat Nat :=
  ⟨a.rows, a.cols, fun r c => Nat.land (a.data r c) (b.data r c)⟩

/-- The integers `0, 1, ..., n - 1` (none when `n <= 0`). -/
def upto (n : Int) : List Int := (List.range n.toNat).map Int.ofNat

/-- `cv::findNonZero(src, idx)`: the positions of the non-zero pixels, row by
row from the top and from left to right within a row. -/
def findNonZero (m : Mat Nat) : List Point :=
  (upto m.rows).flatMap (fun r =>
    ((upto m.cols).filter (fun c => decide (m.data r c ≠ 0))).map (fun c => (⟨c, r⟩ : Point)))

/-- The sub-matrix `m(roi)`; an error when `roi` is not inside `m`. -/
def Mat.roi {α : Type} (m : Mat α) (roi : Rect) : Option (Mat α) :=
  if 0 ≤ roi.x ∧ 0 ≤ roi.width ∧ roi.x + roi.width ≤ m.cols ∧
      0 ≤ roi.y ∧ 0 ≤ roi.height ∧ roi.y + roi.height ≤ m.rows then
    some ⟨roi.height, roi.width, fun r c => m.data (roi.y + r) (roi.x + c)⟩
  else none

/-- The pixels of a matrix, row by row. -/
def Mat.pixels {α : Type} (m : Mat α) : List α :=
  (upto m.rows).flatMap (fun r => (upto m.cols).map (fun c => m.data r c))

/-- `cv::minMaxLoc(src, &minVal, &maxVal)` on an 8-bit single-channel matrix:
the pair (minimum, maximum) of its pixels. -/
def minMaxLoc (m : Mat Nat) : Int × Int :=
  let l := m.pixels
  ((l.foldl min (l.headD 0) : Nat), (l.foldl max (l.headD 0) : Nat))

/-! ## `identify_colors` -/

/-- The table `norm_ycm` of `identify_colors`. -/
def norm_ycm : Int → Vec3 ℚ
  | 0 => ⟨0, 1, 1⟩
  | 1 => ⟨1, 0, 1⟩
  | _ => ⟨1, 1, 0⟩

/-- The conversion of a `cv::Vec3b` to a `cv::Vec3f`. -/
def Vec3.toFloat (p : Vec3 Nat) : Vec3 ℚ := ⟨(p.v0 : ℚ), (p.v1 : ℚ), (p.v2 : ℚ)⟩

/-- `cv::minMaxLoc(p, &min, &max)` on a 3-vector: (minimum, maximum). -/
def minMaxLoc3 (p : Vec3 ℚ) : ℚ × ℚ :=
  (min p.v0 (min p.v1 p.v2), max p.v0 (max p.v1 p.v2))

/-- The constant `DBL_EPSILON` of `<cfloat>`. -/
def DBL_EPSILON : ℚ := 1 / 2 ^ 52

/-- `cv::normalize(p, p, 0, 1, cv::NORM_MINMAX)` on a 3-vector: OpenCV scales by
`(1 - 0) / (smax - smin)`, or by 0 when `smax - smin` is not above
`DBL_EPSILON`, and shifts by `0 - smin * scale`. -/
def normalize_minmax (p : Vec3 ℚ) : Vec3 ℚ :=
  let smin := (minMaxLoc3 p).1
  let smax := (minMaxLoc3 p).2
  let scale : ℚ := (1 - 0) * (if DBL_EPSILON < smax - smin then 1 / (smax - smin) else 0)
  let shift : ℚ := 0 - smin * scale
  ⟨p.v0 * scale + shift, p.v1 * scale + shift, p.v2 * scale + shift⟩

/-- The square of `cv::norm(a, b, cv::NORM_L2)`. -/
def normL2Sqr (a b : Vec3 ℚ) : ℚ :=
  (a.v0 - b.v0) ^ 2 + (a.v1 - b.v1) ^ 2 + (a.v2 - b.v2) ^ 2

/-- The two corner pixels `(p0, p1)` that `identify_colors` reads from `rimg`
(`rimg.at<cv::Vec3b>(row, col)`), chosen by the sign of `rinfo.diff`. -/
def sample_corners (st : State) (rimg : Mat (Vec3 Nat)) (rinfo : landmark_info_t) :
    Vec3 Nat × Vec3 Nat :=
  if 0 < rinfo.diff then
    (rimg.data 0 (st.kdim - 1), rimg.data (st.kdim - 1) 0)
  else
    (rimg.data 0 0, rimg.data (st.kdim - 1) (st.kdim - 1))

/-- One pass of the loop `for (int i = 0; i < 3; i++)` of `identify_colors`.
The loop state is `(q0min, q1min, rinfo)`.  The distances `q0`, `q1`, `q0min`,
`q1min` are kept squared: they are non-negative, and taking the square root of
both sides does not change the outcome of `q0 < q0min`. -/
def classify_step (p0 p1 : Vec3 ℚ) (s : ℚ × ℚ × landmark_info_t) (i : Int) :
    ℚ × ℚ × landmark_info_t :=
  let q0 := normL2Sqr p0 (norm_ycm i)
  let q1 := normL2Sqr p1 (norm_ycm i)
  let s := if q0 < s.1 then (q0, s.2.1, { s.2.2 with c0 := i }) else s
  if q1 < s.2.1 then (s.1, q1, { s.2.2 with c1 := i }) else s

/-- The member function `identify_colors`; the result is the updated `rinfo`.
The code holds the normalized channels and their sum in `float` and compares
the sum with the `double` constant 1.2; here both are exact rationals.  The two
agree except on the boundary of the gate: for a corner whose exact normalized
sum is 6/5, such as (0, 51, 255), the outcome of `s0 > bgr_norm_thr` in the
code depends on the rounding of the `float` operations, and this definition
takes the test to fail. -/
def identify_colors (st : State) (rimg : Mat (Vec3 Nat)) (rinfo : landmark_info_t) :
    landmark_info_t :=
  let p0 := (sample_corners st rimg rinfo).1.toFloat
  let p1 := (sample_corners st rimg rinfo).2.toFloat
  let p0rng := (minMaxLoc3 p0).2 - (minMaxLoc3 p0).1
  let p1rng := (minMaxLoc3 p1).2 - (minMaxLoc3 p1).1
  let p0 := normalize_minmax p0
  let p1 := normalize_minmax p1
  let s0 := p0.v0 + p0.v1 + p0.v2
  let s1 := p1.v0 + p1.v1 + p1.v2
  let bgr_norm_thr : ℚ := 12 / 10
  let bgr_rng_thr : ℚ := 20
  if bgr_norm_thr < s0 ∧ bgr_norm_thr < s1 ∧ bgr_rng_thr < p0rng ∧ bgr_rng_thr < p1rng then
    ([0, 1, 2].foldl (classify_step p0 p1) (3 ^ 2, 3 ^ 2, rinfo)).2.2
  else rinfo

/-! ## `perform_match` -/

/-- The body of the loop `for (const auto& rpt : vec_maxima_pts)` of
`perform_match`: the list `rinfo` after the maximum `rpt` has been examined.
`bilateralFilter` stands for `cv::bilateralFilter(src, dst, 3, 200, 200)`. -/
def check_maximum (st : State) (bilateralFilter : Mat (Vec3 Nat) → Mat (Vec3 Nat))
    (rsrc_bgr : Mat (Vec3 Nat)) (rsrc : Mat Nat) (tmatch0 tmatch1 : Mat ℚ)
    (rinfo : List landmark_info_t) (rpt : Point) : Option (List landmark_info_t) :=
  let pix_p := tmatch0.data rpt.y rpt.x
  let pix_n := tmatch1.data rpt.y rpt.x
  let diff := pix_p - pix_n
  let roi : Rect := ⟨rpt.x, rpt.y, st.tmpl_gray_p.cols, st.tmpl_gray_p.rows⟩
  match rsrc.roi roi with
  | none => none
  | some img_roi =>
    let min_roi := (minMaxLoc img_roi).1
    let max_roi := (minMaxLoc img_roi).2
    let rng_roi := max_roi - min_roi
    if st.thr_pix_rng < rng_roi ∧ min_roi < st.thr_pix_min then
      let lminfo : landmark_info_t :=
        ⟨⟨rpt.x + st.tmpl_offset.x, rpt.y + st.tmpl_offset.y⟩, diff, rng_roi, min_roi, -1, -1⟩
      match rsrc_bgr.roi roi with
      | none => none
      | some img_roi_bgr =>
        if st.is_color_id_enabled = true then
          let img_roi_bgr_proc := bilateralFilter img_roi_bgr
          let lminfo := identify_colors st img_roi_bgr_proc lminfo
          if lminfo.c0 ≠ -1 ∧ lminfo.c1 ≠ -1 then
            if lminfo.c0 ≠ lminfo.c1 then some (rinfo ++ [lminfo]) else some rinfo
          else some rinfo
        else some (rinfo ++ [lminfo])
    else some rinfo

/-- The loop `for (const auto& rpt : vec_maxima_pts)` of `perform_match`. -/
def check_maxima (st : State) (bilateralFilter : Mat (Vec3 Nat) → Mat (Vec3 Nat))
    (rsrc_bgr : Mat (Vec3 Nat)) (rsrc : Mat Nat) (tmatch0 tmatch1 : Mat ℚ) :
    List Point → List landmark_info_t → Option (List landmark_info_t)
  | [], rinfo => some rinfo
  | rpt :: rest, rinfo =>
    match check_maximum st bilateralFilter rsrc_bgr rsrc tmatch0 tmatch1 rinfo rpt with
    | none => none
    | some rinfo => check_maxima st bilateralFilter rsrc_bgr rsrc tmatch0 tmatch1 rest rinfo

/-- The positions `vec_maxima_pts` that `perform_match` examines: the local
maxima of `rtmatch` that exceed `thr_corr`. -/
def maxima_pts (st : State) (rtmatch : Mat ℚ) : List Point :=
  let maxima_mask := dilate rtmatch
  let maxima_mask := compare_GE rtmatch maxima_mask
  let match_masked := rtmatch.gt st.thr_corr
  let maxima_mask := maxima_mask.and match_masked
  findNonZero maxima_mask

/-- The member function `perform_match`: the pair of `rtmatch` and of `rinfo`
as the call leaves them; `none` when OpenCV raises an error on the way. -/
def perform_match (st : State) (corr : Mat Nat → Mat Nat → Int → Int → ℚ)
    (bilateralFilter : Mat (Vec3 Nat) → Mat (Vec3 Nat))
    (rsrc_bgr : Mat (Vec3 Nat)) (rsrc : Mat Nat) (rinfo : List landmark_info_t) :
    Option (Mat ℚ × List landmark_info_t) :=
  match matchTemplate corr rsrc st.tmpl_gray_p with
  | none => none
  | some tmatch0 =>
    match matchTemplate corr rsrc st.tmpl_gray_n with
    | none => none
    | some tmatch1 =>
      match tmatch0.sub tmatch1 with
      | none => none
      | some d =>
        let rtmatch := d.abs
        let vec_maxima_pts := maxima_pts st rtmatch
        match check_maxima st bilateralFilter rsrc_bgr rsrc tmatch0 tmatch1 vec_maxima_pts rinfo with
        | none => none
        | some rinfo => some (rtmatch, rinfo)

/-! ## Notions used to state the properties -/

/-- The record `lminfo` that `perform_match` starts to fill in for the maximum
`rpt`, given the grayscale region `img_roi` anchored at `rpt`. -/
def candidate (st : State) (tmatch0 tmatch1 : Mat ℚ) (img_roi : Mat Nat) (rpt : Point) :
    landmark_info_t :=
  ⟨⟨rpt.x + st.tmpl_offset.x, rpt.y + st.tmpl_offset.y⟩,
    tmatch0.data rpt.y rpt.x - tmatch1.data rpt.y rpt.x,
    (minMaxLoc img_roi).2 - (minMaxLoc img_roi).1, (minMaxLoc img_roi).1, -1, -1⟩

/-- The region of interest that `perform_match` extracts at the maximum `rpt`. -/
def roi_at (st : State) (rpt : Point) : Rect :=
  ⟨rpt.x, rpt.y, st.tmpl_gray_p.cols, st.tmpl_gray_p.rows⟩

/-- The landmarks (none or one) that the loop body appends for the maximum `rpt`. -/
def appended_at (st : State) (bilateralFilter : Mat (Vec3 Nat) → Mat (Vec3 Nat))
    (rsrc_bgr : Mat (Vec3 Nat)) (rsrc : Mat Nat) (tmatch0 tmatch1 : Mat ℚ) (rpt : Point) :
    List landmark_info_t :=
  (check_maximum st bilateralFilter rsrc_bgr rsrc tmatch0 tmatch1 [] rpt).getD []

/-- The sum of the three normalized channels of a corner pixel (`s0`, `s1` of
`identify_colors`). -/
def norm_sum (p : Vec3 Nat) : ℚ :=
  (normalize_minmax p.toFloat).v0 + (normalize_minmax p.toFloat).v1 +
    (normalize_minmax p.toFloat).v2

/-- The raw channel range of a corner pixel (`p0rng`, `p1rng` of
`identify_colors`). -/
def chan_range (p : Vec3 Nat) : ℚ := (minMaxLoc3 p.toFloat).2 - (minMaxLoc3 p.toFloat).1

/-- The two tests that `identify_colors` makes on each corner pixel. -/
def passes_gate (p : Vec3 Nat) : Prop := 12 / 10 < norm_sum p ∧ 20 < chan_range p

instance (p : Vec3 Nat) : Decidable (passes_gate p) := by
  unfold passes_gate; exact inferInstance

/-- The classification in the words of the specification: the smallest index
of a reference vector of `norm_ycm` at minimal distance from `p`. -/
def nearest_ycm (p : Vec3 ℚ) : Int :=
  if normL2Sqr p (norm_ycm 0) ≤ normL2Sqr p (norm_ycm 1) ∧
      normL2Sqr p (norm_ycm 0) ≤ normL2Sqr p (norm_ycm 2) then 0
  else if normL2Sqr p (norm_ycm 1) ≤ normL2Sqr p (norm_ycm 2) then 1
  else 2

/-- The part of `classify_step` that concerns one corner: the pair of the
smallest squared distance so far and the index that gave it. -/
def classify_one (p : Vec3 ℚ) (s : ℚ × Int) (i : Int) : ℚ × Int :=
  if normL2Sqr p (norm_ycm i) < s.1 then (normL2Sqr p (norm_ycm i), i) else s

/-- Modelled from the spec: the switch of colour identification (`colorIdEnabled`
of the detector configuration) is declared in `BGRLandmark.h`; it changes the
flag `is_color_id_enabled` and nothing else. -/
def set_color_id_enabled (st : State) (f : Bool) : State :=
  { st with is_color_id_enabled := f }

/-! ## Concrete inputs -/

/-- Correlation values for the examples: 1 against a template whose top-left
pixel is black, -1 against the other one, at every position. -/
def corr_demo : Mat Nat → Mat Nat → Int → Int → ℚ :=
  fun _ templ _ _ => if templ.data 0 0 = 0 then 1 else -1

/-- A 9 x 9 colour image: the rendering of `PATTERN_A`. -/
def demo_bgr : Mat (Vec3 Nat) := create_template_image 9 PATTERN_A

/-- The grayscale version of `demo_bgr`. -/
def demo_gray : Mat Nat := cvtColor_BGR2GRAY demo_bgr

/-- The detector state after `init(9, 0.5, 45, 80)`. -/
def demo_state : State := init 9 (1 / 2) 45 80

/-- The state `demo_state` with colour identification switched off. -/
def demo_state_gray : State := set_color_id_enabled demo_state false

/-- Correlation values of a flat image: OpenCV returns 0 where the window has
no variance. -/
def corr_flat : Mat Nat → Mat Nat → Int → Int → ℚ := fun _ _ _ _ => 0

/-- A 9 x 9 colour image, dark yellow on the left and dark magenta on the
right; both colours have the gray level 50. -/
def flat_bgr : Mat (Vec3 Nat) :=
  ⟨9, 9, fun _ c => if c < 5 then ⟨0, 56, 56⟩ else ⟨120, 0, 120⟩⟩

/-- The grayscale version of `flat_bgr`. -/
def flat_gray : Mat Nat := cvtColor_BGR2GRAY flat_bgr

/-- The record that `perform_match` hands to `identify_colors` for the maximum
at (0, 0) of `demo_gray`. -/
def demo_info : landmark_info_t := ⟨⟨4, 4⟩, 2, 226, 0, -1, -1⟩

/-- The scan order of `cv::findNonZero`: `a` comes before `b` when it lies in
an earlier row, or in the same row further left. -/
def scan_before (a b : Point) : Prop := a.y < b.y ∨ (a.y = b.y ∧ a.x < b.x)

/-- A 9 x 10 colour image: `demo_bgr` with its last column repeated, so that
the template fits at two positions. -/
def wide_bgr : Mat (Vec3 Nat) := ⟨9, 10, fun r c => demo_bgr.data r (min c 8)⟩

/-- The grayscale version of `wide_bgr`. -/
def wide_gray : Mat Nat := cvtColor_BGR2GRAY wide_bgr

/-- The index (0 for B, 1 for G, 2 for R) of the darkest channel of a pixel
whose darkest channel is unique. -/
def darkest_channel (p : Vec3 Nat) : Int :=
  if p.v0 < p.v1 ∧ p.v0 < p.v2 then 0
  else if p.v1 < p.v0 ∧ p.v1 < p.v2 then 1
  else 2

/-- The class that `identify_colors` gives to a hue: 0 for yellow, 1 for
magenta, 2 for cyan (the rows of `norm_ycm`); -1 for the other colours. -/
def hue_index : bgr_t → Int
  | .YELLOW => 0
  | .MAGENTA => 1
  | .CYAN => 2
  | _ => -1

/-- The six colour presets. -/
def color_presets : List grid_colors_t :=
  [PATTERN_A, PATTERN_B, PATTERN_C, PATTERN_D, PATTERN_E, PATTERN_F]

/-- The sizes `kdim` that `init` can store. -/
def template_sizes : List Int := [9, 11, 13, 15]

/-- The check that the top-right and bottom-left pixels of the `k x k`
rendering of the pattern `P` pass the gate and have the hues of the quadrants
`c01` and `c10` as nearest reference vectors. -/
def clean_corners_ok (P : grid_colors_t) (k : Int) : Prop :=
  passes_gate ((create_template_image k P).data 0 (k - 1)) ∧
  passes_gate ((create_template_image k P).data (k - 1) 0) ∧
  nearest_ycm (normalize_minmax ((create_template_image k P).data 0 (k - 1)).toFloat) =
    hue_index P.c01 ∧
  nearest_ycm (normalize_minmax ((create_template_image k P).data (k - 1) 0).toFloat) =
    hue_index P.c10

instance (P : grid_colors_t) (k : Int) : Decidable (clean_corners_ok P k) := by
  unfold clean_corners_ok; exact inferInstance

/-- The conversion `static_cast<int>(double)`: truncation towards zero. -/
def static_cast_int (v : ℚ) : Int := if 0 ≤ v then Int.floor v else Int.ceil v

/-- The statement `src.copyTo(dst(roi))`: `dst` with the pixels of `src` copied
into the rectangle `roi` (of the size of `src`); an error when `roi` is not
inside `dst`. -/
def copyTo_roi {α : Type} (src dst : Mat α) (roi : Rect) : Option (Mat α) :=
  if 0 ≤ roi.x ∧ 0 ≤ roi.width ∧ roi.x + roi.width ≤ dst.cols ∧
      0 ≤ roi.y ∧ 0 ≤ roi.height ∧ roi.y + roi.height ≤ dst.rows then
    some ⟨dst.rows, dst.cols, fun r c =>
      if roi.y ≤ r ∧ r < roi.y + roi.height ∧ roi.x ≤ c ∧ c < roi.x + roi.width then
        src.data (r - roi.y) (c - roi.x)
      else dst.data r c⟩
  else none

/-- The static function `create_landmark_image`; `none` when OpenCV raises an
error (a negative image size).  The default value of `dpi` is declared in
`BGRLandmark.h`; here `dpi` is always given. -/
def create_landmark_image (dim_grid dim_border : ℚ) (rcolors : grid_colors_t)
    (border_color : Vec3 ℚ) (dpi : Int) : Option (Mat (Vec3 Nat)) :=
  let dim_grid_fix : ℚ := apply_rail dim_grid (1 / 2) 6
  let dim_border_fix : ℚ := apply_rail dim_border 0 1
  let kgrid := static_cast_int (dim_grid_fix * dpi)
  let kborder := static_cast_int (dim_border_fix * dpi)
  let kgridh := Int.tdiv kgrid 2
  let kfull := kgrid + (kborder * 2)
  let colors0 := BGR_COLORS rcolors.c00
  let colors1 := BGR_COLORS rcolors.c01
  let colors2 := BGR_COLORS rcolors.c11
  let colors3 := BGR_COLORS rcolors.c10
  if kfull < 0 ∨ kgrid < 0 then none
  else
    let rimg := Mat.zeros kfull kfull
    let rimg := rectangle rimg ⟨0, 0, kfull, kfull⟩ border_color
    let img_grid := Mat.zeros kgrid kgrid
    let img_grid := rectangle img_grid ⟨0, 0, kgridh - 1, kgridh - 1⟩ colors0
    let img_grid := rectangle img_grid ⟨kgridh, 0, kgridh, kgridh⟩ colors1
    let img_grid := rectangle img_grid ⟨kgridh, kgridh, kgrid - 1, kgrid - 1⟩ colors2
    let img_grid := rectangle img_grid ⟨0, kgridh, kgridh, kgridh⟩ colors3
    let roi : Rect := ⟨kborder, kborder, img_grid.cols, img_grid.rows⟩
    copyTo_roi img_grid rimg roi

/-- The sum of `f i j` over `0 <= i < rows`, `0 <= j < cols`. -/
def window_sum (rows cols : Int) (f : Int → Int → Int) : Int :=
  ((upto rows).flatMap (fun i => (upto cols).map (fun j => f i j))).sum

/-- Bisection for the integer square root of `n`: the root lies in `[lo, hi)`. -/
def isqrt_aux (n : Nat) : Nat → Nat → Nat → Nat
  | 0, lo, _ => lo
  | fuel + 1, lo, hi =>
    if hi ≤ lo + 1 then lo
    else if ((lo + hi) / 2) * ((lo + hi) / 2) ≤ n then isqrt_aux n fuel ((lo + hi) / 2) hi
    else isqrt_aux n fuel lo ((lo + hi) / 2)

/-- The integer square root of `n`, rounded down. -/
def isqrt (n : Nat) : Nat := isqrt_aux n (n + 1) 0 (n + 1)

/-- The correlation value that `cv::matchTemplate` with `TM_CCOEFF_NORMED`
computes for the window of `img` anchored at row `r`, column `c`:
`num / t`, where `num` is the sum of products of the window and the template,
each less its mean, and `t` the square root of the product of their energies;
OpenCV returns `num / t` when `|num| < t`, else 1 or -1 when `|num| < 1.125 t`,
else 0.  Numerator and radicand are scaled by the number of pixels to stay
integers; the square root is rounded down to 24 binary places, and is exact
when the radicand is a perfect square. -/
def ccoeff_normed (img templ : Mat Nat) (r c : Int) : ℚ :=
  let n : Int := templ.rows * templ.cols
  let sI := window_sum templ.rows templ.cols (fun i j => (img.data (r + i) (c + j) : Int))
  let sT := window_sum templ.rows templ.cols (fun i j => (templ.data i j : Int))
  let sII := window_sum templ.rows templ.cols
    (fun i j => (img.data (r + i) (c + j) : Int) * (img.data (r + i) (c + j) : Int))
  let sTT := window_sum templ.rows templ.cols
    (fun i j => (templ.data i j : Int) * (templ.data i j : Int))
  let sIT := window_sum templ.rows templ.cols
    (fun i j => (img.data (r + i) (c + j) : Int) * (templ.data i j : Int))
  let num : ℚ := ((n * sIT - sI * sT : Int) : ℚ)
  let d2 : Int := (n * sII - sI * sI) * (n * sTT - sT * sT)
  let t : ℚ := (isqrt (d2.toNat * 4 ^ 24) : ℚ) / 2 ^ 24
  if |num| < t then num / t
  else if |num| < t * (1125 / 1000) then (if 0 < num then 1 else -1)
  else 0

/-- The positive template for `kdim = 9`, taken as a grayscale source image. -/
def tmpl9 : Mat Nat := demo_state.tmpl_gray_p

/-! ## The loop of `perform_match` -/

theorem check_maximum_append (st : State) (bf : Mat (Vec3 Nat) → Mat (Vec3 Nat))
    (rsrc_bgr : Mat (Vec3 Nat)) (rsrc : Mat Nat) (t0 t1 : Mat ℚ)
    (rinfo : List landmark_info_t) (rpt : Point) :
    check_maximum st bf rsrc_bgr rsrc t0 t1 rinfo rpt =
      (check_maximum st bf rsrc_bgr rsrc t0 t1 [] rpt).map (fun l => rinfo ++ l) := by
  simp only [check_maximum]
  cases rsrc.roi ⟨rpt.x, rpt.y, st.tmpl_gray_p.cols, st.tmpl_gray_p.rows⟩ with
  | none => rfl
  | some img_roi =>
    cases rsrc_bgr.roi ⟨rpt.x, rpt.y, st.tmpl_gray_p.cols, st.tmpl_gray_p.rows⟩ with
    | none => simp only []; split_ifs <;> simp
    | some img_roi_bgr => simp only []; split_ifs <;> simp

theorem check_maxima_some (st : State) (bf : Mat (Vec3 Nat) → Mat (Vec3 Nat))
    (rsrc_bgr : Mat (Vec3 Nat)) (rsrc : Mat Nat) (t0 t1 : Mat ℚ) (pts : List Point) :
    ∀ (rinfo out : List landmark_info_t),
      check_maxima st bf rsrc_bgr rsrc t0 t1 pts rinfo = some out →
      out = rinfo ++ pts.flatMap (appended_at st bf rsrc_bgr rsrc t0 t1) ∧
      ∀ p ∈ pts, check_maximum st bf rsrc_bgr rsrc t0 t1 [] p ≠ none := by
  induction pts with
  | nil =>
    intro rinfo out h
    simp [check_maxima] at h
    simp [h]
  | cons p rest ih =>
    intro rinfo out h
    rw [check_maxima, check_maximum_append] at h
    cases hp : check_maximum st bf rsrc_bgr rsrc t0 t1 [] p with
    | none => simp [hp] at h
    | some l =>
      simp only [hp, Option.map_some'] at h
      obtain ⟨h1, h2⟩ := ih _ _ h
      refine ⟨?_, ?_⟩
      · simp [h1, appended_at, hp, List.flatMap_cons]
      · intro q hq
        rcases List.mem_cons.1 hq with rfl | hq
        · simp [hp]
        · exact h2 q hq

theorem check_maxima_total (st : State) (bf : Mat (Vec3 Nat) → Mat (Vec3 Nat))
    (rsrc_bgr : Mat (Vec3 Nat)) (rsrc : Mat Nat) (t0 t1 : Mat ℚ) (pts : List Point) :
    ∀ (rinfo : List landmark_info_t),
      (∀ p ∈ pts, check_maximum st bf rsrc_bgr rsrc t0 t1 [] p ≠ none) →
      check_maxima st bf rsrc_bgr rsrc t0 t1 pts rinfo =
        some (rinfo ++ pts.flatMap (appended_at st bf rsrc_bgr rsrc t0 t1)) := by
  induction pts with
  | nil => intro rinfo _; simp [check_maxima]
  | cons p rest ih =>
    intro rinfo h
    rw [check_maxima, check_maximum_append]
    cases hp : check_maximum st bf rsrc_bgr rsrc t0 t1 [] p with
    | none => exact absurd hp (h p (List.mem_cons_self _ _))
    | some l =>
      simp only [Option.map_some']
      rw [ih _ (fun q hq => h q (List.mem_cons_of_mem _ hq))]
      simp [appended_at, hp, List.flatMap_cons]

/-- What `perform_match` does, in one statement: a successful call has matched
both templates, returns their absolute difference as `rtmatch`, and has run the
loop over the maxima of `rtmatch`, appending to `rinfo`. -/
theorem perform_match_some (st : State) (corr : Mat Nat → Mat Nat → Int → Int → ℚ)
    (bf : Mat (Vec3 Nat) → Mat (Vec3 Nat)) (rsrc_bgr : Mat (Vec3 Nat)) (rsrc : Mat Nat)
    (rinfo out : List landmark_info_t) (rtmatch : Mat ℚ)
    (h : perform_match st corr bf rsrc_bgr rsrc rinfo = some (rtmatch, out)) :
    ∃ t0 t1 d, matchTemplate corr rsrc st.tmpl_gray_p = some t0 ∧
      matchTemplate corr rsrc st.tmpl_gray_n = some t1 ∧ t0.sub t1 = some d ∧
      rtmatch = d.abs ∧
      out = rinfo ++ (maxima_pts st rtmatch).flatMap (appended_at st bf rsrc_bgr rsrc t0 t1) ∧
      ∀ p ∈ maxima_pts st rtmatch, check_maximum st bf rsrc_bgr rsrc t0 t1 [] p ≠ none := by
  unfold perform_match at h
  cases h0 : matchTemplate corr rsrc st.tmpl_gray_p with
  | none => simp [h0] at h
  | some t0 =>
    cases h1 : matchTemplate corr rsrc st.tmpl_gray_n with
    | none => simp [h0, h1] at h
    | some t1 =>
      cases hd : t0.sub t1 with
      | none => simp [h0, h1, hd] at h
      | some d =>
        simp only [h0, h1, hd] at h
        cases hc : check_maxima st bf rsrc_bgr rsrc t0 t1 (maxima_pts st d.abs) rinfo with
        | none => simp [hc] at h
        | some o =>
          simp only [hc, Option.some.injEq, Prod.mk.injEq] at h
          obtain ⟨rfl, rfl⟩ := h
          obtain ⟨e1, e2⟩ := check_maxima_some st bf rsrc_bgr rsrc t0 t1 _ _ _ hc
          exact ⟨t0, t1, d, rfl, rfl, hd, rfl, e1, e2⟩

/-! ## `identify_colors`: what it leaves alone and what it can write -/

theorem classify_step_fields (p0 p1 : Vec3 ℚ) (s : ℚ × ℚ × landmark_info_t) (i : Int) :
    (classify_step p0 p1 s i).2.2.position = s.2.2.position ∧
    (classify_step p0 p1 s i).2.2.diff = s.2.2.diff ∧
    (classify_step p0 p1 s i).2.2.pixelRange = s.2.2.pixelRange ∧
    (classify_step p0 p1 s i).2.2.pixelMin = s.2.2.pixelMin ∧
    ((classify_step p0 p1 s i).2.2.c0 = s.2.2.c0 ∨ (classify_step p0 p1 s i).2.2.c0 = i) ∧
    ((classify_step p0 p1 s i).2.2.c1 = s.2.2.c1 ∨ (classify_step p0 p1 s i).2.2.c1 = i) := by
  unfold classify_step
  simp only []
  split_ifs <;> simp

theorem classify_fold_fields (p0 p1 : Vec3 ℚ) (l : List Int) :
    ∀ s : ℚ × ℚ × landmark_info_t,
    (l.foldl (classify_step p0 p1) s).2.2.position = s.2.2.position ∧
    (l.foldl (classify_step p0 p1) s).2.2.diff = s.2.2.diff ∧
    (l.foldl (classify_step p0 p1) s).2.2.pixelRange = s.2.2.pixelRange ∧
    (l.foldl (classify_step p0 p1) s).2.2.pixelMin = s.2.2.pixelMin ∧
    ((l.foldl (classify_step p0 p1) s).2.2.c0 = s.2.2.c0 ∨
      (l.foldl (classify_step p0 p1) s).2.2.c0 ∈ l) ∧
    ((l.foldl (classify_step p0 p1) s).2.2.c1 = s.2.2.c1 ∨
      (l.foldl (classify_step p0 p1) s).2.2.c1 ∈ l) := by
  induction l with
  | nil => intro s; simp
  | cons i rest ih =>
    intro s
    obtain ⟨a1, a2, a3, a4, a5, a6⟩ := ih (classify_step p0 p1 s i)
    obtain ⟨b1, b2, b3, b4, b5, b6⟩ := classify_step_fields p0 p1 s i
    simp only [List.foldl_cons, List.mem_cons]
    refine ⟨a1.trans b1, a2.trans b2, a3.trans b3, a4.trans b4, ?_, ?_⟩
    · rcases a5 with h | h
      · rcases b5 with h2 | h2
        · exact Or.inl (h.trans h2)
        · exact Or.inr (Or.inl (h.trans h2))
      · exact Or.inr (Or.inr h)
    · rcases a6 with h | h
      · rcases b6 with h2 | h2
        · exact Or.inl (h.trans h2)
        · exact Or.inr (Or.inl (h.trans h2))
      · exact Or.inr (Or.inr h)

/-- `identify_colors` writes nothing but `c0` and `c1`, and writes there
nothing but 0, 1 or 2. -/
theorem identify_colors_fields (st : State) (rimg : Mat (Vec3 Nat)) (rinfo : landmark_info_t) :
    (identify_colors st rimg rinfo).position = rinfo.position ∧
    (identify_colors st rimg rinfo).diff = rinfo.diff ∧
    (identify_colors st rimg rinfo).pixelRange = rinfo.pixelRange ∧
    (identify_colors st rimg rinfo).pixelMin = rinfo.pixelMin ∧
    ((identify_colors st rimg rinfo).c0 = rinfo.c0 ∨ (identify_colors st rimg rinfo).c0 = 0 ∨
      (identify_colors st rimg rinfo).c0 = 1 ∨ (identify_colors st rimg rinfo).c0 = 2) ∧
    ((identify_colors st rimg rinfo).c1 = rinfo.c1 ∨ (identify_colors st rimg rinfo).c1 = 0 ∨
      (identify_colors st rimg rinfo).c1 = 1 ∨ (identify_colors st rimg rinfo).c1 = 2) := by
  unfold identify_colors
  simp only []
  split_ifs
  · have h := classify_fold_fields
      (normalize_minmax (sample_corners st rimg rinfo).1.toFloat)
      (normalize_minmax (sample_corners st rimg rinfo).2.toFloat) [0, 1, 2] (3 ^ 2, 3 ^ 2, rinfo)
    simpa using h
  · simp

/-! ## The landmarks appended for one maximum -/

theorem mem_appended_at (st : State) (bf : Mat (Vec3 Nat) → Mat (Vec3 Nat))
    (rsrc_bgr : Mat (Vec3 Nat)) (rsrc : Mat Nat) (t0 t1 : Mat ℚ) (rpt : Point)
    (lm : landmark_info_t) :
    lm ∈ appended_at st bf rsrc_bgr rsrc t0 t1 rpt ↔
      ∃ img_roi img_roi_bgr, rsrc.roi (roi_at st rpt) = some img_roi ∧
        rsrc_bgr.roi (roi_at st rpt) = some img_roi_bgr ∧
        st.thr_pix_rng < (minMaxLoc img_roi).2 - (minMaxLoc img_roi).1 ∧
        (minMaxLoc img_roi).1 < st.thr_pix_min ∧
        ((st.is_color_id_enabled = true ∧
            lm = identify_colors st (bf img_roi_bgr) (candidate st t0 t1 img_roi rpt) ∧
            lm.c0 ≠ -1 ∧ lm.c1 ≠ -1 ∧ lm.c0 ≠ lm.c1) ∨
          (st.is_color_id_enabled = false ∧ lm = candidate st t0 t1 img_roi rpt)) := by
  simp only [appended_at, check_maximum, roi_at, candidate]
  cases rsrc.roi ⟨rpt.x, rpt.y, st.tmpl_gray_p.cols, st.tmpl_gray_p.rows⟩ with
  | none => simp
  | some img_roi =>
    cases rsrc_bgr.roi ⟨rpt.x, rpt.y, st.tmpl_gray_p.cols, st.tmpl_gray_p.rows⟩ with
    | none => simp only []; split_ifs <;> simp
    | some img_roi_bgr =>
      simp only []
      cases hen : st.is_color_id_enabled <;> split_ifs <;> simp_all

/-- A call whose list of landmarks is known has some correlation map with it. -/
theorem exists_rtmatch (o : Option (Mat ℚ × List landmark_info_t))
    (out : List landmark_info_t) (h : o.map Prod.snd = some out) :
    ∃ rtmatch, o = some (rtmatch, out) := by
  cases o with
  | none => simp at h
  | some r =>
    obtain ⟨rt, l⟩ := r
    simp only [Option.map_some', Option.some.injEq] at h
    exact ⟨rt, by rw [h]⟩

/-! ## C1: the colour gate of `perform_match` -/

/-- C1: when colour identification is enabled, every landmark that a successful
call of `perform_match` appends to `rinfo` has `c0` and `c1` in {0, 1, 2} and
different from each other; none has `c0 = -1` or `c1 = -1`. -/
theorem perform_match_color_gate (st : State) (corr : Mat Nat → Mat Nat → Int → Int → ℚ)
    (bf : Mat (Vec3 Nat) → Mat (Vec3 Nat)) (rsrc_bgr : Mat (Vec3 Nat)) (rsrc : Mat Nat)
    (rinfo out : List landmark_info_t) (rtmatch : Mat ℚ)
    (hen : st.is_color_id_enabled = true)
    (h : perform_match st corr bf rsrc_bgr rsrc rinfo = some (rtmatch, out)) :
    ∃ new, out = rinfo ++ new ∧ ∀ lm ∈ new,
      (lm.c0 = 0 ∨ lm.c0 = 1 ∨ lm.c0 = 2) ∧ (lm.c1 = 0 ∨ lm.c1 = 1 ∨ lm.c1 = 2) ∧
      lm.c0 ≠ lm.c1 ∧ lm.c0 ≠ -1 ∧ lm.c1 ≠ -1 := by
  obtain ⟨t0, t1, d, -, -, -, -, hout, -⟩ := perform_match_some st corr bf rsrc_bgr rsrc _ _ _ h
  refine ⟨_, hout, ?_⟩
  intro lm hlm
  obtain ⟨p, -, hp⟩ := List.mem_flatMap.1 hlm
  obtain ⟨img_roi, img_roi_bgr, -, -, -, -, hcase⟩ :=
    (mem_appended_at st bf rsrc_bgr rsrc t0 t1 p lm).1 hp
  rcases hcase with ⟨-, hlm, h0, h1, hne⟩ | ⟨hdis, -⟩
  · obtain ⟨-, -, -, -, hc0, hc1⟩ :=
      identify_colors_fields st (bf img_roi_bgr) (candidate st t0 t1 img_roi p)
    rw [← hlm] at hc0 hc1
    have e0 : (candidate st t0 t1 img_roi p).c0 = -1 := rfl
    have e1 : (candidate st t0 t1 img_roi p).c1 = -1 := rfl
    rw [e0] at hc0
    rw [e1] at hc1
    refine ⟨?_, ?_, hne, h0, h1⟩
    · rcases hc0 with hc0 | hc0
      · exact absurd hc0 h0
      · exact hc0
    · rcases hc1 with hc1 | hc1
      · exact absurd hc1 h1
      · exact hc1
  · rw [hen] at hdis
    exact absurd hdis (by decide)

/-- C1, on the 9 x 9 rendering of `PATTERN_A`: the call appends one landmark,
classified (0, 1). -/
theorem perform_match_color_gate_witness :
    ∃ new, [(⟨⟨4, 4⟩, 2, 226, 0, 0, 1⟩ : landmark_info_t)] = [] ++ new ∧ ∀ lm ∈ new,
      (lm.c0 = 0 ∨ lm.c0 = 1 ∨ lm.c0 = 2) ∧ (lm.c1 = 0 ∨ lm.c1 = 1 ∨ lm.c1 = 2) ∧
      lm.c0 ≠ lm.c1 ∧ lm.c0 ≠ -1 ∧ lm.c1 ≠ -1 :=
  (exists_rtmatch (perform_match demo_state corr_demo id demo_bgr demo_gray [])
    [⟨⟨4, 4⟩, 2, 226, 0, 0, 1⟩] (by decide!)).elim
    (fun rt h => perform_match_color_gate demo_state corr_demo id demo_bgr demo_gray [] _ rt
      (by decide) h)

/-! ## C7: the template size stored by `init` -/

/-- C++ division of an `int` by 2, in terms of the floor division of `Int`. -/
theorem tdiv_two (k : Int) : Int.tdiv k 2 = if 0 ≤ k then k / 2 else -((-k) / 2) := by
  split_ifs with hk
  · exact Int.tdiv_eq_ediv hk (by decide)
  · have h1 : k = -(-k) := by omega
    have h2 : (0 : Int) ≤ -k := by omega
    rw [h1, Int.neg_tdiv, Int.tdiv_eq_ediv h2 (by decide)]
    simp

theorem init_kdim_eq (k : Int) (thr_corr : ℚ) (thr_pix_rng thr_pix_min : Int) :
    (init k thr_corr thr_pix_rng thr_pix_min).kdim = apply_rail (Int.tdiv k 2 * 2 + 1) 9 15 :=
  rfl

/-- The `kdim` stored by `init` is odd and lies in 9..15. -/
theorem init_kdim_bounds (k : Int) (thr_corr : ℚ) (thr_pix_rng thr_pix_min : Int) :
    (init k thr_corr thr_pix_rng thr_pix_min).kdim % 2 = 1 ∧
    9 ≤ (init k thr_corr thr_pix_rng thr_pix_min).kdim ∧
    (init k thr_corr thr_pix_rng thr_pix_min).kdim ≤ 15 := by
  simp only [init_kdim_eq, apply_rail, tdiv_two]
  refine ⟨?_, ?_, ?_⟩ <;> split_ifs <;> omega

/-- C7: whatever `k` is passed to `init`, the stored `kdim` is odd and lies in
9..15, and it is `k` itself when `k` is odd and in 9..15; `init(8)` stores 9,
`init(16)` stores 15, `init(9)` stores 9 and `init(-3)` stores 9. -/
theorem init_kdim (k : Int) (thr_corr : ℚ) (thr_pix_rng thr_pix_min : Int) :
    (init k thr_corr thr_pix_rng thr_pix_min).kdim % 2 = 1 ∧
    9 ≤ (init k thr_corr thr_pix_rng thr_pix_min).kdim ∧
    (init k thr_corr thr_pix_rng thr_pix_min).kdim ≤ 15 ∧
    ((k % 2 = 1 ∧ 9 ≤ k ∧ k ≤ 15) → (init k thr_corr thr_pix_rng thr_pix_min).kdim = k) ∧
    (init 8 thr_corr thr_pix_rng thr_pix_min).kdim = 9 ∧
    (init 16 thr_corr thr_pix_rng thr_pix_min).kdim = 15 ∧
    (init 9 thr_corr thr_pix_rng thr_pix_min).kdim = 9 ∧
    (init (-3) thr_corr thr_pix_rng thr_pix_min).kdim = 9 := by
  simp only [init_kdim_eq, apply_rail, tdiv_two]
  refine ⟨?_, ?_, ?_, ?_, by decide, by decide, by decide, by decide⟩
  · split_ifs <;> omega
  · split_ifs <;> omega
  · split_ifs <;> omega
  · rintro ⟨h1, h2, h3⟩
    split_ifs <;> omega

/-- C7 at `k = 13`, an odd value inside the range. -/
theorem init_kdim_witness : (init 13 (1 / 2) 45 80).kdim = 13 :=
  (init_kdim 13 (1 / 2) 45 80).2.2.2.1 (by decide)

/-! ## The maxima that `perform_match` examines -/

theorem mem_upto (n i : Int) : i ∈ upto n ↔ 0 ≤ i ∧ i < n := by
  simp only [upto, List.mem_map, List.mem_range]
  constructor
  · rintro ⟨a, ha, rfl⟩
    have : (Int.ofNat a) = (a : Int) := rfl
    omega
  · rintro ⟨h0, h1⟩
    refine ⟨i.toNat, by omega, ?_⟩
    have : (Int.ofNat i.toNat) = ((i.toNat : Nat) : Int) := rfl
    omega

theorem mem_findNonZero (m : Mat Nat) (p : Point) :
    p ∈ findNonZero m ↔ m.inside p.y p.x ∧ m.data p.y p.x ≠ 0 := by
  obtain ⟨x, y⟩ := p
  simp only [findNonZero, List.mem_flatMap, List.mem_map, List.mem_filter, mem_upto,
    Mat.inside, decide_eq_true_eq, Point.mk.injEq]
  constructor
  · rintro ⟨r, hr, c, ⟨hc, hnz⟩, rfl, rfl⟩
    exact ⟨⟨hr.1, hr.2, hc.1, hc.2⟩, hnz⟩
  · rintro ⟨⟨h1, h2, h3, h4⟩, hnz⟩
    exact ⟨y, ⟨h1, h2⟩, x, ⟨⟨h3, h4⟩, hnz⟩, rfl, rfl⟩

theorem mem_neighbours {α : Type} (m : Mat α) (r c : Int) (q : Int × Int) :
    q ∈ neighbours m r c ↔ m.inside q.1 q.2 ∧ |q.1 - r| ≤ 1 ∧ |q.2 - c| ≤ 1 := by
  obtain ⟨a, b⟩ := q
  simp only [neighbours, List.mem_filter, List.pair_mem_product, List.mem_cons,
    List.mem_singleton, decide_eq_true_eq, abs_le, List.not_mem_nil, or_false]
  constructor
  · rintro ⟨⟨ha, hb⟩, hin⟩
    refine ⟨hin, ?_, ?_⟩ <;> omega
  · rintro ⟨hin, ha, hb⟩
    refine ⟨⟨?_, ?_⟩, hin⟩ <;> omega

theorem foldl_max_le_iff {β : Type} (f : β → ℚ) (l : List β) :
    ∀ (a b : ℚ), l.foldl (fun acc p => max acc (f p)) a ≤ b ↔ a ≤ b ∧ ∀ q ∈ l, f q ≤ b := by
  induction l with
  | nil => intro a b; simp
  | cons x rest ih =>
    intro a b
    simp only [List.foldl_cons, ih, max_le_iff, List.mem_cons, forall_eq_or_imp]
    tauto

theorem mask_and_ne_zero (A B : Prop) [Decidable A] [Decidable B] :
    Nat.land (if A then 255 else 0) (if B then 255 else 0) ≠ 0 ↔ A ∧ B := by
  by_cases hA : A <;> by_cases hB : B <;> simp [hA, hB] <;> decide

/-- The positions examined by `perform_match` are the pixels of `rtmatch` that
exceed `thr_corr` and that no pixel of their 3 x 3 neighbourhood exceeds. -/
theorem mem_maxima_pts (st : State) (rtmatch : Mat ℚ) (p : Point) :
    p ∈ maxima_pts st rtmatch ↔
      rtmatch.inside p.y p.x ∧ st.thr_corr < rtmatch.data p.y p.x ∧
      ∀ r c, rtmatch.inside r c → |r - p.y| ≤ 1 → |c - p.x| ≤ 1 →
        rtmatch.data r c ≤ rtmatch.data p.y p.x := by
  simp only [maxima_pts, mem_findNonZero, Mat.and, compare_GE, Mat.gt, dilate,
    mask_and_ne_zero, foldl_max_le_iff, mem_neighbours, le_refl, true_and, Prod.forall]
  constructor
  · rintro ⟨hin, hmax, hthr⟩
    exact ⟨hin, hthr, fun r c h1 h2 h3 => hmax r c ⟨h1, h2, h3⟩⟩
  · rintro ⟨hin, hthr, hmax⟩
    exact ⟨hin, fun r c h => hmax r c h.1 h.2.1 h.2.2, hthr⟩

/-- The loop body raises no error exactly when the grayscale region can be
extracted and, if it passes the pixel tests, the colour region too. -/
theorem check_maximum_ne_none (st : State) (bf : Mat (Vec3 Nat) → Mat (Vec3 Nat))
    (rsrc_bgr : Mat (Vec3 Nat)) (rsrc : Mat Nat) (t0 t1 : Mat ℚ) (rpt : Point) :
    check_maximum st bf rsrc_bgr rsrc t0 t1 [] rpt ≠ none ↔
      ∃ img_roi, rsrc.roi (roi_at st rpt) = some img_roi ∧
        ((st.thr_pix_rng < (minMaxLoc img_roi).2 - (minMaxLoc img_roi).1 ∧
            (minMaxLoc img_roi).1 < st.thr_pix_min) →
          ∃ img_roi_bgr, rsrc_bgr.roi (roi_at st rpt) = some img_roi_bgr) := by
  simp only [check_maximum, roi_at]
  cases rsrc.roi ⟨rpt.x, rpt.y, st.tmpl_gray_p.cols, st.tmpl_gray_p.rows⟩ with
  | none => simp
  | some img_roi =>
    cases rsrc_bgr.roi ⟨rpt.x, rpt.y, st.tmpl_gray_p.cols, st.tmpl_gray_p.rows⟩ with
    | none => simp only []; split_ifs <;> simp_all
    | some img_roi_bgr => simp only []; split_ifs <;> simp_all

/-! ## C3: landmarks sit on local maxima above `thr_corr` -/

/-- C3: after a successful call of `perform_match`, `rtmatch` is the map
`|corrPositive - corrNegative|`, and every appended landmark is anchored
(its position less the template offset) at a pixel of that map whose value is
above `thr_corr` and is not exceeded in its 3 x 3 neighbourhood; a pixel that
is exceeded by a neighbour, or is not above `thr_corr`, anchors no appended
landmark. -/
theorem perform_match_local_maxima (st : State) (corr : Mat Nat → Mat Nat → Int → Int → ℚ)
    (bf : Mat (Vec3 Nat) → Mat (Vec3 Nat)) (rsrc_bgr : Mat (Vec3 Nat)) (rsrc : Mat Nat)
    (rinfo out : List landmark_info_t) (rtmatch : Mat ℚ)
    (h : perform_match st corr bf rsrc_bgr rsrc rinfo = some (rtmatch, out)) :
    (∃ t0 t1, matchTemplate corr rsrc st.tmpl_gray_p = some t0 ∧
      matchTemplate corr rsrc st.tmpl_gray_n = some t1 ∧
      rtmatch.rows = t0.rows ∧ rtmatch.cols = t0.cols ∧
      ∀ r c, rtmatch.data r c = |t0.data r c - t1.data r c|) ∧
    ∃ new, out = rinfo ++ new ∧
      (∀ lm ∈ new, ∃ p : Point,
        lm.position = ⟨p.x + st.tmpl_offset.x, p.y + st.tmpl_offset.y⟩ ∧
        rtmatch.inside p.y p.x ∧ st.thr_corr < rtmatch.data p.y p.x ∧
        ∀ r c, rtmatch.inside r c → |r - p.y| ≤ 1 → |c - p.x| ≤ 1 →
          rtmatch.data r c ≤ rtmatch.data p.y p.x) ∧
      (∀ p : Point,
        (rtmatch.data p.y p.x ≤ st.thr_corr ∨
          ∃ r c, rtmatch.inside r c ∧ |r - p.y| ≤ 1 ∧ |c - p.x| ≤ 1 ∧
            rtmatch.data p.y p.x < rtmatch.data r c) →
        ∀ lm ∈ new, lm.position ≠ ⟨p.x + st.tmpl_offset.x, p.y + st.tmpl_offset.y⟩) := by
  obtain ⟨t0, t1, d, h0, h1, hd, hrt, hout, -⟩ :=
    perform_match_some st corr bf rsrc_bgr rsrc _ _ _ h
  have hanchor : ∀ lm ∈ (maxima_pts st rtmatch).flatMap (appended_at st bf rsrc_bgr rsrc t0 t1),
      ∃ p ∈ maxima_pts st rtmatch,
        lm.position = ⟨p.x + st.tmpl_offset.x, p.y + st.tmpl_offset.y⟩ := by
    intro lm hlm
    obtain ⟨p, hp, hlmp⟩ := List.mem_flatMap.1 hlm
    refine ⟨p, hp, ?_⟩
    obtain ⟨img_roi, img_roi_bgr, -, -, -, -, hcase⟩ :=
      (mem_appended_at st bf rsrc_bgr rsrc t0 t1 p lm).1 hlmp
    rcases hcase with ⟨-, hlm, -⟩ | ⟨-, hlm⟩
    · rw [hlm, (identify_colors_fields st _ _).1]; rfl
    · rw [hlm]; rfl
  refine ⟨⟨t0, t1, h0, h1, ?_, ?_, ?_⟩, _, hout, ?_, ?_⟩
  · unfold Mat.sub at hd
    split_ifs at hd
    cases hd
    rw [hrt]; rfl
  · unfold Mat.sub at hd
    split_ifs at hd
    cases hd
    rw [hrt]; rfl
  · intro r c
    unfold Mat.sub at hd
    split_ifs at hd
    cases hd
    rw [hrt]; rfl
  · intro lm hlm
    obtain ⟨p, hp, hpos⟩ := hanchor lm hlm
    exact ⟨p, hpos, (mem_maxima_pts st rtmatch p).1 hp⟩
  · intro p hbad lm hlm hpos
    obtain ⟨q, hq, hposq⟩ := hanchor lm hlm
    rw [hpos] at hposq
    have hx : p.x = q.x := by
      have := congrArg Point.x hposq
      simp only at this
      omega
    have hy : p.y = q.y := by
      have := congrArg Point.y hposq
      simp only at this
      omega
    obtain ⟨-, hthr, hmax⟩ := (mem_maxima_pts st rtmatch q).1 hq
    rw [← hx, ← hy] at hthr hmax
    rcases hbad with hle | ⟨r, c, hin, hr, hc, hlt⟩
    · exact absurd hthr (not_lt.2 hle)
    · exact absurd (hmax r c hin hr hc) (not_le.2 hlt)

/-- C3 on the 9 x 9 rendering of `PATTERN_A`, whose single landmark is anchored
at the only pixel of the 1 x 1 correlation map. -/
theorem perform_match_local_maxima_witness :
    ∃ rtmatch : Mat ℚ,
    (∃ t0 t1, matchTemplate corr_demo demo_gray demo_state.tmpl_gray_p = some t0 ∧
      matchTemplate corr_demo demo_gray demo_state.tmpl_gray_n = some t1 ∧
      rtmatch.rows = t0.rows ∧ rtmatch.cols = t0.cols ∧
      ∀ r c, rtmatch.data r c = |t0.data r c - t1.data r c|) ∧
    ∃ new, [(⟨⟨4, 4⟩, 2, 226, 0, 0, 1⟩ : landmark_info_t)] = [] ++ new ∧
      (∀ lm ∈ new, ∃ p : Point,
        lm.position = ⟨p.x + demo_state.tmpl_offset.x, p.y + demo_state.tmpl_offset.y⟩ ∧
        rtmatch.inside p.y p.x ∧ demo_state.thr_corr < rtmatch.data p.y p.x ∧
        ∀ r c, rtmatch.inside r c → |r - p.y| ≤ 1 → |c - p.x| ≤ 1 →
          rtmatch.data r c ≤ rtmatch.data p.y p.x) ∧
      (∀ p : Point,
        (rtmatch.data p.y p.x ≤ demo_state.thr_corr ∨
          ∃ r c, rtmatch.inside r c ∧ |r - p.y| ≤ 1 ∧ |c - p.x| ≤ 1 ∧
            rtmatch.data p.y p.x < rtmatch.data r c) →
        ∀ lm ∈ new,
          lm.position ≠ ⟨p.x + demo_state.tmpl_offset.x, p.y + demo_state.tmpl_offset.y⟩) :=
  (exists_rtmatch (perform_match demo_state corr_demo id demo_bgr demo_gray [])
    [⟨⟨4, 4⟩, 2, 226, 0, 0, 1⟩] (by decide!)).elim
    (fun rt h => ⟨rt, perform_match_local_maxima demo_state corr_demo id demo_bgr demo_gray
      [] _ rt h⟩)

/-! ## C2: the pixel-range and pixel-minimum tests -/

/-- C2: after a successful call of `perform_match`, every appended landmark
comes from an examined maximum whose grayscale region (of the size of the
template, anchored at the maximum) has `max - min > thr_pix_rng` and
`min < thr_pix_min`; and when colour identification is disabled, an examined
maximum gets a landmark appended if and only if its region passes both tests. -/
theorem perform_match_pixel_tests (st : State) (corr : Mat Nat → Mat Nat → Int → Int → ℚ)
    (bf : Mat (Vec3 Nat) → Mat (Vec3 Nat)) (rsrc_bgr : Mat (Vec3 Nat)) (rsrc : Mat Nat)
    (rinfo out : List landmark_info_t) (rtmatch : Mat ℚ)
    (h : perform_match st corr bf rsrc_bgr rsrc rinfo = some (rtmatch, out)) :
    ∃ new, out = rinfo ++ new ∧
      (∀ lm ∈ new, ∃ p ∈ maxima_pts st rtmatch, ∃ img_roi,
        rsrc.roi (roi_at st p) = some img_roi ∧
        lm.position = ⟨p.x + st.tmpl_offset.x, p.y + st.tmpl_offset.y⟩ ∧
        st.thr_pix_rng < (minMaxLoc img_roi).2 - (minMaxLoc img_roi).1 ∧
        (minMaxLoc img_roi).1 < st.thr_pix_min) ∧
      (st.is_color_id_enabled = false →
        ∀ p ∈ maxima_pts st rtmatch, ∃ img_roi, rsrc.roi (roi_at st p) = some img_roi ∧
          ((∃ lm ∈ new, lm.position = ⟨p.x + st.tmpl_offset.x, p.y + st.tmpl_offset.y⟩) ↔
            (st.thr_pix_rng < (minMaxLoc img_roi).2 - (minMaxLoc img_roi).1 ∧
              (minMaxLoc img_roi).1 < st.thr_pix_min))) := by
  obtain ⟨t0, t1, d, -, -, -, -, hout, hok⟩ :=
    perform_match_some st corr bf rsrc_bgr rsrc _ _ _ h
  have hfrom : ∀ lm ∈ (maxima_pts st rtmatch).flatMap (appended_at st bf rsrc_bgr rsrc t0 t1),
      ∃ p ∈ maxima_pts st rtmatch, ∃ img_roi,
        rsrc.roi (roi_at st p) = some img_roi ∧
        lm.position = ⟨p.x + st.tmpl_offset.x, p.y + st.tmpl_offset.y⟩ ∧
        st.thr_pix_rng < (minMaxLoc img_roi).2 - (minMaxLoc img_roi).1 ∧
        (minMaxLoc img_roi).1 < st.thr_pix_min := by
    intro lm hlm
    obtain ⟨p, hp, hlmp⟩ := List.mem_flatMap.1 hlm
    obtain ⟨img_roi, img_roi_bgr, hroi, -, hrng, hmin, hcase⟩ :=
      (mem_appended_at st bf rsrc_bgr rsrc t0 t1 p lm).1 hlmp
    refine ⟨p, hp, img_roi, hroi, ?_, hrng, hmin⟩
    rcases hcase with ⟨-, hlm, -⟩ | ⟨-, hlm⟩
    · rw [hlm, (identify_colors_fields st _ _).1]; rfl
    · rw [hlm]; rfl
  refine ⟨_, hout, hfrom, ?_⟩
  intro hdis p hp
  obtain ⟨img_roi, hroi, hbgr⟩ := (check_maximum_ne_none st bf rsrc_bgr rsrc t0 t1 p).1 (hok p hp)
  refine ⟨img_roi, hroi, ?_, ?_⟩
  · rintro ⟨lm, hlm, hpos⟩
    obtain ⟨q, -, img_roi2, hroi2, hposq, hrng, hmin⟩ := hfrom lm hlm
    rw [hpos] at hposq
    have hx : p.x = q.x := by
      have := congrArg Point.x hposq
      simp only at this
      omega
    have hy : p.y = q.y := by
      have := congrArg Point.y hposq
      simp only at this
      omega
    have hpq : p = q := by
      cases p; cases q; simp only [Point.mk.injEq]; exact ⟨hx, hy⟩
    rw [← hpq, hroi] at hroi2
    cases hroi2
    exact ⟨hrng, hmin⟩
  · intro htests
    obtain ⟨img_roi_bgr, hb⟩ := hbgr htests
    refine ⟨candidate st t0 t1 img_roi p, ?_, rfl⟩
    refine List.mem_flatMap.2 ⟨p, hp, ?_⟩
    exact (mem_appended_at st bf rsrc_bgr rsrc t0 t1 p _).2
      ⟨img_roi, img_roi_bgr, hroi, hb, htests.1, htests.2, Or.inr ⟨hdis, rfl⟩⟩

/-- C2 on the 9 x 9 rendering of `PATTERN_A` with colour identification off:
the region of the single maximum has range 226 and minimum 0, and its landmark
is appended. -/
theorem perform_match_pixel_tests_witness :
    ∃ rtmatch : Mat ℚ, ∃ new,
      [(⟨⟨4, 4⟩, 2, 226, 0, -1, -1⟩ : landmark_info_t)] = [] ++ new ∧
      (∀ lm ∈ new, ∃ p ∈ maxima_pts demo_state_gray rtmatch, ∃ img_roi,
        demo_gray.roi (roi_at demo_state_gray p) = some img_roi ∧
        lm.position =
          ⟨p.x + demo_state_gray.tmpl_offset.x, p.y + demo_state_gray.tmpl_offset.y⟩ ∧
        demo_state_gray.thr_pix_rng < (minMaxLoc img_roi).2 - (minMaxLoc img_roi).1 ∧
        (minMaxLoc img_roi).1 < demo_state_gray.thr_pix_min) ∧
      (demo_state_gray.is_color_id_enabled = false →
        ∀ p ∈ maxima_pts demo_state_gray rtmatch, ∃ img_roi,
          demo_gray.roi (roi_at demo_state_gray p) = some img_roi ∧
          ((∃ lm ∈ new, lm.position =
              ⟨p.x + demo_state_gray.tmpl_offset.x, p.y + demo_state_gray.tmpl_offset.y⟩) ↔
            (demo_state_gray.thr_pix_rng < (minMaxLoc img_roi).2 - (minMaxLoc img_roi).1 ∧
              (minMaxLoc img_roi).1 < demo_state_gray.thr_pix_min))) :=
  (exists_rtmatch (perform_match demo_state_gray corr_demo id demo_bgr demo_gray [])
    [⟨⟨4, 4⟩, 2, 226, 0, -1, -1⟩] (by decide!)).elim
    (fun rt h => ⟨rt, perform_match_pixel_tests demo_state_gray corr_demo id demo_bgr
      demo_gray [] _ rt h⟩)

/-! ## The OpenCV helpers: sizes, regions, minimum and maximum -/

theorem rectangle_size (img : Mat (Vec3 Nat)) (rec : Rect) (color : Vec3 ℚ) :
    (rectangle img rec color).rows = img.rows ∧ (rectangle img rec color).cols = img.cols := by
  unfold rectangle
  split_ifs <;> simp

theorem line_size (img : Mat (Vec3 Nat)) (pt1 pt2 : Point) (color : Vec3 ℚ) :
    (line img pt1 pt2 color).rows = img.rows ∧ (line img pt1 pt2 color).cols = img.cols := by
  unfold line
  split_ifs <;> simp

theorem create_template_image_size (k : Int) (rcolors : grid_colors_t) :
    (create_template_image k rcolors).rows = k ∧ (create_template_image k rcolors).cols = k := by
  simp only [create_template_image, (line_size _ _ _ _).1, (line_size _ _ _ _).2,
    (rectangle_size _ _ _).1, (rectangle_size _ _ _).2, Mat.zeros, and_self]

/-- Both templates built by `init` are `kdim x kdim`. -/
theorem init_tmpl_size (k : Int) (thr_corr : ℚ) (thr_pix_rng thr_pix_min : Int) :
    (init k thr_corr thr_pix_rng thr_pix_min).tmpl_gray_p.rows =
      (init k thr_corr thr_pix_rng thr_pix_min).kdim ∧
    (init k thr_corr thr_pix_rng thr_pix_min).tmpl_gray_p.cols =
      (init k thr_corr thr_pix_rng thr_pix_min).kdim ∧
    (init k thr_corr thr_pix_rng thr_pix_min).tmpl_gray_n.rows =
      (init k thr_corr thr_pix_rng thr_pix_min).kdim ∧
    (init k thr_corr thr_pix_rng thr_pix_min).tmpl_gray_n.cols =
      (init k thr_corr thr_pix_rng thr_pix_min).kdim := by
  simp only [init, cvtColor_BGR2GRAY, rotate_90_clockwise,
    (create_template_image_size _ _).1, (create_template_image_size _ _).2, and_self]

theorem foldl_min_spec (l : List Nat) :
    ∀ a : Nat, l.foldl min a ≤ a ∧ (∀ x ∈ l, l.foldl min a ≤ x) ∧
      (l.foldl min a = a ∨ l.foldl min a ∈ l) := by
  induction l with
  | nil => intro a; simp
  | cons x rest ih =>
    intro a
    obtain ⟨h1, h2, h3⟩ := ih (min a x)
    simp only [List.foldl_cons, List.mem_cons, forall_eq_or_imp]
    refine ⟨le_trans h1 (min_le_left _ _), ⟨le_trans h1 (min_le_right _ _), h2⟩, ?_⟩
    rcases h3 with h | h
    · rcases min_choice a x with h' | h'
      · exact Or.inl (h.trans h')
      · exact Or.inr (Or.inl (h.trans h'))
    · exact Or.inr (Or.inr h)

theorem foldl_max_spec (l : List Nat) :
    ∀ a : Nat, a ≤ l.foldl max a ∧ (∀ x ∈ l, x ≤ l.foldl max a) ∧
      (l.foldl max a = a ∨ l.foldl max a ∈ l) := by
  induction l with
  | nil => intro a; simp
  | cons x rest ih =>
    intro a
    obtain ⟨h1, h2, h3⟩ := ih (max a x)
    simp only [List.foldl_cons, List.mem_cons, forall_eq_or_imp]
    refine ⟨le_trans (le_max_left _ _) h1, ⟨le_trans (le_max_right _ _) h1, h2⟩, ?_⟩
    rcases h3 with h | h
    · rcases max_choice a x with h' | h'
      · exact Or.inl (h.trans h')
      · exact Or.inr (Or.inl (h.trans h'))
    · exact Or.inr (Or.inr h)

theorem mem_pixels {α : Type} (m : Mat α) (v : α) :
    v ∈ m.pixels ↔ ∃ r c, m.inside r c ∧ m.data r c = v := by
  simp only [Mat.pixels, List.mem_flatMap, List.mem_map, mem_upto, Mat.inside]
  constructor
  · rintro ⟨r, hr, c, hc, rfl⟩
    exact ⟨r, c, ⟨hr.1, hr.2, hc.1, hc.2⟩, rfl⟩
  · rintro ⟨r, c, ⟨h1, h2, h3, h4⟩, rfl⟩
    exact ⟨r, ⟨h1, h2⟩, c, ⟨h3, h4⟩, rfl⟩

/-- On a matrix with at least one pixel, `minMaxLoc` returns a lower and an
upper bound of the pixels, each of them the value of some pixel. -/
theorem minMaxLoc_spec (m : Mat Nat) (hr : 0 < m.rows) (hc : 0 < m.cols) :
    (∀ r c, m.inside r c →
      (minMaxLoc m).1 ≤ (m.data r c : Int) ∧ (m.data r c : Int) ≤ (minMaxLoc m).2) ∧
    (∃ r c, m.inside r c ∧ (m.data r c : Int) = (minMaxLoc m).1) ∧
    (∃ r c, m.inside r c ∧ (m.data r c : Int) = (minMaxLoc m).2) := by
  have hmem : m.data 0 0 ∈ m.pixels :=
    (mem_pixels m _).2 ⟨0, 0, ⟨le_refl _, hr, le_refl _, hc⟩, rfl⟩
  have hhead : m.pixels.headD 0 ∈ m.pixels := by
    cases hl : m.pixels with
    | nil => rw [hl] at hmem; exact absurd hmem (List.not_mem_nil _)
    | cons a t => simp
  obtain ⟨-, a2, a3⟩ := foldl_min_spec m.pixels (m.pixels.headD 0)
  obtain ⟨-, b2, b3⟩ := foldl_max_spec m.pixels (m.pixels.headD 0)
  have hmin : m.pixels.foldl min (m.pixels.headD 0) ∈ m.pixels := by
    rcases a3 with h | h
    · rw [h]; exact hhead
    · exact h
  have hmax : m.pixels.foldl max (m.pixels.headD 0) ∈ m.pixels := by
    rcases b3 with h | h
    · rw [h]; exact hhead
    · exact h
  refine ⟨?_, ?_, ?_⟩
  · intro r c hin
    have hp : m.data r c ∈ m.pixels := (mem_pixels m _).2 ⟨r, c, hin, rfl⟩
    simp only [minMaxLoc]
    exact ⟨Int.ofNat_le.2 (a2 _ hp), Int.ofNat_le.2 (b2 _ hp)⟩
  · obtain ⟨r, c, hin, he⟩ := (mem_pixels m _).1 hmin
    exact ⟨r, c, hin, by simp only [minMaxLoc]; rw [he]⟩
  · obtain ⟨r, c, hin, he⟩ := (mem_pixels m _).1 hmax
    exact ⟨r, c, hin, by simp only [minMaxLoc]; rw [he]⟩

theorem roi_some {α : Type} (m : Mat α) (roi : Rect) (sub : Mat α) (h : m.roi roi = some sub) :
    sub.rows = roi.height ∧ sub.cols = roi.width ∧
    (∀ r c, sub.data r c = m.data (roi.y + r) (roi.x + c)) ∧
    0 ≤ roi.x ∧ roi.x + roi.width ≤ m.cols ∧ 0 ≤ roi.y ∧ roi.y + roi.height ≤ m.rows := by
  unfold Mat.roi at h
  split_ifs at h with hc
  cases h
  exact ⟨rfl, rfl, fun _ _ => rfl, hc.1, hc.2.2.1, hc.2.2.2.1, hc.2.2.2.2.2⟩

/-! ## C8: the fields of an appended landmark -/

/-- C8: in a state set up by `init` (colour identification on or off), every
landmark appended by a successful call of `perform_match` comes from an
examined maximum `p = (x, y)` and has `position = (x + kdim/2, y + kdim/2)`,
`diff = corrPositive(x, y) - corrNegative(x, y)` (signed), `pixelMin` the
smallest and `pixelMin + pixelRange` the largest pixel of the `kdim x kdim`
region of the grayscale image anchored at `(x, y)`, which lies inside the
image. -/
theorem perform_match_landmark_fields (k : Int) (thr_corr : ℚ) (thr_pix_rng thr_pix_min : Int)
    (en : Bool) (corr : Mat Nat → Mat Nat → Int → Int → ℚ)
    (bf : Mat (Vec3 Nat) → Mat (Vec3 Nat)) (rsrc_bgr : Mat (Vec3 Nat)) (rsrc : Mat Nat)
    (rinfo out : List landmark_info_t) (rtmatch : Mat ℚ)
    (h : perform_match (set_color_id_enabled (init k thr_corr thr_pix_rng thr_pix_min) en)
      corr bf rsrc_bgr rsrc rinfo = some (rtmatch, out)) :
    ∃ t0 t1 new,
      matchTemplate corr rsrc (init k thr_corr thr_pix_rng thr_pix_min).tmpl_gray_p = some t0 ∧
      matchTemplate corr rsrc (init k thr_corr thr_pix_rng thr_pix_min).tmpl_gray_n = some t1 ∧
      out = rinfo ++ new ∧
      ∀ lm ∈ new, ∃ p ∈
          maxima_pts (set_color_id_enabled (init k thr_corr thr_pix_rng thr_pix_min) en) rtmatch,
        lm.position = ⟨p.x + (init k thr_corr thr_pix_rng thr_pix_min).kdim / 2,
          p.y + (init k thr_corr thr_pix_rng thr_pix_min).kdim / 2⟩ ∧
        lm.diff = t0.data p.y p.x - t1.data p.y p.x ∧
        (0 ≤ p.x ∧ p.x + (init k thr_corr thr_pix_rng thr_pix_min).kdim ≤ rsrc.cols ∧
          0 ≤ p.y ∧ p.y + (init k thr_corr thr_pix_rng thr_pix_min).kdim ≤ rsrc.rows) ∧
        (∀ r c, 0 ≤ r → r < (init k thr_corr thr_pix_rng thr_pix_min).kdim →
          0 ≤ c → c < (init k thr_corr thr_pix_rng thr_pix_min).kdim →
          lm.pixelMin ≤ (rsrc.data (p.y + r) (p.x + c) : Int) ∧
          (rsrc.data (p.y + r) (p.x + c) : Int) ≤ lm.pixelMin + lm.pixelRange) ∧
        (∃ r c, 0 ≤ r ∧ r < (init k thr_corr thr_pix_rng thr_pix_min).kdim ∧
          0 ≤ c ∧ c < (init k thr_corr thr_pix_rng thr_pix_min).kdim ∧
          (rsrc.data (p.y + r) (p.x + c) : Int) = lm.pixelMin) ∧
        (∃ r c, 0 ≤ r ∧ r < (init k thr_corr thr_pix_rng thr_pix_min).kdim ∧
          0 ≤ c ∧ c < (init k thr_corr thr_pix_rng thr_pix_min).kdim ∧
          (rsrc.data (p.y + r) (p.x + c) : Int) = lm.pixelMin + lm.pixelRange) := by
  obtain ⟨t0, t1, d, h0, h1, -, -, hout, -⟩ :=
    perform_match_some _ corr bf rsrc_bgr rsrc _ _ _ h
  refine ⟨t0, t1, _, h0, h1, hout, ?_⟩
  intro lm hlm
  obtain ⟨p, hp, hlmp⟩ := List.mem_flatMap.1 hlm
  obtain ⟨img_roi, img_roi_bgr, hroi, -, -, -, hcase⟩ := (mem_appended_at _ bf rsrc_bgr rsrc t0 t1 p lm).1 hlmp
  obtain ⟨hk1, hk9, hk15⟩ := init_kdim_bounds k thr_corr thr_pix_rng thr_pix_min
  obtain ⟨hsr, hsc, -, -⟩ := init_tmpl_size k thr_corr thr_pix_rng thr_pix_min
  have hfields : lm.position = (candidate (set_color_id_enabled
        (init k thr_corr thr_pix_rng thr_pix_min) en) t0 t1 img_roi p).position ∧
      lm.diff = (candidate (set_color_id_enabled
        (init k thr_corr thr_pix_rng thr_pix_min) en) t0 t1 img_roi p).diff ∧
      lm.pixelRange = (candidate (set_color_id_enabled
        (init k thr_corr thr_pix_rng thr_pix_min) en) t0 t1 img_roi p).pixelRange ∧
      lm.pixelMin = (candidate (set_color_id_enabled
        (init k thr_corr thr_pix_rng thr_pix_min) en) t0 t1 img_roi p).pixelMin := by
    rcases hcase with ⟨-, hlm, -⟩ | ⟨-, hlm⟩
    · obtain ⟨f1, f2, f3, f4, -⟩ := identify_colors_fields
        (set_color_id_enabled (init k thr_corr thr_pix_rng thr_pix_min) en) (bf img_roi_bgr)
        (candidate (set_color_id_enabled (init k thr_corr thr_pix_rng thr_pix_min) en)
          t0 t1 img_roi p)
      rw [hlm]
      exact ⟨f1, f2, f3, f4⟩
    · rw [hlm]
      exact ⟨rfl, rfl, rfl, rfl⟩
  obtain ⟨e1, e2, e3, e4⟩ := hfields
  obtain ⟨r1, r2, r3, r4, r5, r6, r7⟩ := roi_some rsrc _ img_roi hroi
  have hh : (roi_at (set_color_id_enabled (init k thr_corr thr_pix_rng thr_pix_min) en) p).height
      = (init k thr_corr thr_pix_rng thr_pix_min).kdim := hsr
  have hw : (roi_at (set_color_id_enabled (init k thr_corr thr_pix_rng thr_pix_min) en) p).width
      = (init k thr_corr thr_pix_rng thr_pix_min).kdim := hsc
  have hx : (roi_at (set_color_id_enabled (init k thr_corr thr_pix_rng thr_pix_min) en) p).x
      = p.x := rfl
  have hy : (roi_at (set_color_id_enabled (init k thr_corr thr_pix_rng thr_pix_min) en) p).y
      = p.y := rfl
  rw [hh] at r1 r7
  rw [hw] at r2 r5
  rw [hx] at r3 r4 r5
  rw [hy] at r3 r6 r7
  obtain ⟨m1, ⟨ra, ca, hina, hea⟩, ⟨rb, cb, hinb, heb⟩⟩ :=
    minMaxLoc_spec img_roi (by omega) (by omega)
  have hmin : lm.pixelMin = (minMaxLoc img_roi).1 := e4
  have hrng : lm.pixelRange = (minMaxLoc img_roi).2 - (minMaxLoc img_roi).1 := e3
  have hoff : Int.tdiv (init k thr_corr thr_pix_rng thr_pix_min).kdim 2 =
      (init k thr_corr thr_pix_rng thr_pix_min).kdim / 2 := by
    rw [tdiv_two, if_pos (by omega)]
  refine ⟨p, hp, ?_, e2, ⟨r4, r5, r6, r7⟩, ?_, ?_, ?_⟩
  · rw [e1, ← hoff]; rfl
  · intro r c hr0 hr1 hc0 hc1
    have := m1 r c ⟨hr0, by omega, hc0, by omega⟩
    rw [r3] at this
    rw [hmin, hrng]
    constructor
    · exact this.1
    · have := this.2
      omega
  · refine ⟨ra, ca, hina.1, ?_, hina.2.2.1, ?_, ?_⟩
    · have := hina.2.1; omega
    · have := hina.2.2.2; omega
    · rw [hmin, ← hea, r3]
  · refine ⟨rb, cb, hinb.1, ?_, hinb.2.2.1, ?_, ?_⟩
    · have := hinb.2.1; omega
    · have := hinb.2.2.2; omega
    · rw [hmin, hrng, ← heb, r3]; omega

/-- C8 on the 9 x 9 rendering of `PATTERN_A`: the landmark of the maximum at
(0, 0) has position (4, 4), diff 2, pixel range 226 and pixel minimum 0. -/
theorem perform_match_landmark_fields_witness :
    ∃ rtmatch : Mat ℚ, ∃ t0 t1 new,
      matchTemplate corr_demo demo_gray demo_state.tmpl_gray_p = some t0 ∧
      matchTemplate corr_demo demo_gray demo_state.tmpl_gray_n = some t1 ∧
      [(⟨⟨4, 4⟩, 2, 226, 0, 0, 1⟩ : landmark_info_t)] = [] ++ new ∧
      ∀ lm ∈ new, ∃ p ∈ maxima_pts (set_color_id_enabled demo_state true) rtmatch,
        lm.position = ⟨p.x + demo_state.kdim / 2, p.y + demo_state.kdim / 2⟩ ∧
        lm.diff = t0.data p.y p.x - t1.data p.y p.x ∧
        (0 ≤ p.x ∧ p.x + demo_state.kdim ≤ demo_gray.cols ∧
          0 ≤ p.y ∧ p.y + demo_state.kdim ≤ demo_gray.rows) ∧
        (∀ r c, 0 ≤ r → r < demo_state.kdim → 0 ≤ c → c < demo_state.kdim →
          lm.pixelMin ≤ (demo_gray.data (p.y + r) (p.x + c) : Int) ∧
          (demo_gray.data (p.y + r) (p.x + c) : Int) ≤ lm.pixelMin + lm.pixelRange) ∧
        (∃ r c, 0 ≤ r ∧ r < demo_state.kdim ∧ 0 ≤ c ∧ c < demo_state.kdim ∧
          (demo_gray.data (p.y + r) (p.x + c) : Int) = lm.pixelMin) ∧
        (∃ r c, 0 ≤ r ∧ r < demo_state.kdim ∧ 0 ≤ c ∧ c < demo_state.kdim ∧
          (demo_gray.data (p.y + r) (p.x + c) : Int) = lm.pixelMin + lm.pixelRange) :=
  (exists_rtmatch
    (perform_match (set_color_id_enabled demo_state true) corr_demo id demo_bgr demo_gray [])
    [⟨⟨4, 4⟩, 2, 226, 0, 0, 1⟩] (by decide!)).elim
    (fun rt h => ⟨rt, perform_match_landmark_fields 9 (1 / 2) 45 80 true corr_demo id demo_bgr
      demo_gray [] _ rt h⟩)

/-! ## C9: raising `thr_corr` never adds a landmark -/

theorem flatMap_sublist_left {α β : Type} (f : α → List β) {l1 l2 : List α}
    (h : List.Sublist l1 l2) : List.Sublist (l1.flatMap f) (l2.flatMap f) := by
  induction h with
  | slnil => simp
  | cons a _ ih =>
    rw [List.flatMap_cons]
    exact List.Sublist.trans ih (List.sublist_append_right _ _)
  | cons₂ a _ ih =>
    rw [List.flatMap_cons, List.flatMap_cons]
    exact List.Sublist.append (List.Sublist.refl _) ih

theorem flatMap_sublist_right {α β : Type} (f g : α → List β) (l : List α)
    (h : ∀ a, List.Sublist (f a) (g a)) : List.Sublist (l.flatMap f) (l.flatMap g) := by
  induction l with
  | nil => simp
  | cons a rest ih =>
    rw [List.flatMap_cons, List.flatMap_cons]
    exact List.Sublist.append (h a) ih

theorem findNonZero_sublist (m1 m2 : Mat Nat) (hr : m2.rows = m1.rows) (hc : m2.cols = m1.cols)
    (himp : ∀ r c, m2.data r c ≠ 0 → m1.data r c ≠ 0) :
    List.Sublist (findNonZero m2) (findNonZero m1) := by
  unfold findNonZero
  rw [hr, hc]
  apply flatMap_sublist_right
  intro r
  apply List.Sublist.map
  apply List.monotone_filter_right
  intro c hc2
  simp only [decide_eq_true_eq] at hc2 ⊢
  exact himp r c hc2

/-- With a higher threshold the examined maxima are a sub-list of those
examined with a lower one. -/
theorem maxima_pts_sublist (st : State) (thr1 thr2 : ℚ) (hle : thr1 ≤ thr2) (rtmatch : Mat ℚ) :
    List.Sublist (maxima_pts { st with thr_corr := thr2 } rtmatch)
      (maxima_pts { st with thr_corr := thr1 } rtmatch) := by
  unfold maxima_pts
  apply findNonZero_sublist
  · rfl
  · rfl
  · intro r c
    simp only [Mat.and, Mat.gt, compare_GE, mask_and_ne_zero]
    rintro ⟨h1, h2⟩
    exact ⟨h1, lt_of_le_of_lt hle h2⟩

theorem check_maximum_thr (st : State) (thr : ℚ) (bf : Mat (Vec3 Nat) → Mat (Vec3 Nat))
    (rsrc_bgr : Mat (Vec3 Nat)) (rsrc : Mat Nat) (t0 t1 : Mat ℚ)
    (rinfo : List landmark_info_t) (rpt : Point) :
    check_maximum { st with thr_corr := thr } bf rsrc_bgr rsrc t0 t1 rinfo rpt =
      check_maximum st bf rsrc_bgr rsrc t0 t1 rinfo rpt := rfl

/-- C9: for thresholds `thr1 <= thr2` and everything else fixed, if the call
of `perform_match` with `thr_corr = thr1` succeeds then so does the call with
`thr_corr = thr2`, with the same correlation map, and the landmarks it appends
are a sub-list, in the same order, of those appended with `thr1`; so is the
whole output list, in particular when `rinfo` is empty. -/
theorem perform_match_thr_monotone (st : State) (thr1 thr2 : ℚ) (hle : thr1 ≤ thr2)
    (corr : Mat Nat → Mat Nat → Int → Int → ℚ)
    (bf : Mat (Vec3 Nat) → Mat (Vec3 Nat)) (rsrc_bgr : Mat (Vec3 Nat)) (rsrc : Mat Nat)
    (rinfo out1 : List landmark_info_t) (rtmatch : Mat ℚ)
    (h : perform_match { st with thr_corr := thr1 } corr bf rsrc_bgr rsrc rinfo =
      some (rtmatch, out1)) :
    ∃ new1 new2, out1 = rinfo ++ new1 ∧
      perform_match { st with thr_corr := thr2 } corr bf rsrc_bgr rsrc rinfo =
        some (rtmatch, rinfo ++ new2) ∧
      List.Sublist new2 new1 ∧ List.Sublist (rinfo ++ new2) out1 := by
  obtain ⟨t0, t1, d, h0, h1, hd, hrt, hout, hok⟩ :=
    perform_match_some _ corr bf rsrc_bgr rsrc _ _ _ h
  have hsub := maxima_pts_sublist st thr1 thr2 hle rtmatch
  have happ : appended_at { st with thr_corr := thr2 } bf rsrc_bgr rsrc t0 t1 =
      appended_at { st with thr_corr := thr1 } bf rsrc_bgr rsrc t0 t1 := rfl
  have hok2 : ∀ p ∈ maxima_pts { st with thr_corr := thr2 } rtmatch,
      check_maximum { st with thr_corr := thr2 } bf rsrc_bgr rsrc t0 t1 [] p ≠ none := by
    intro p hp
    have := hok p (hsub.subset hp)
    rw [check_maximum_thr] at this ⊢
    exact this
  have hrun := check_maxima_total { st with thr_corr := thr2 } bf rsrc_bgr rsrc t0 t1
    (maxima_pts { st with thr_corr := thr2 } rtmatch) rinfo hok2
  have hnew : List.Sublist
      ((maxima_pts { st with thr_corr := thr2 } rtmatch).flatMap
        (appended_at { st with thr_corr := thr2 } bf rsrc_bgr rsrc t0 t1))
      ((maxima_pts { st with thr_corr := thr1 } rtmatch).flatMap
        (appended_at { st with thr_corr := thr1 } bf rsrc_bgr rsrc t0 t1)) := by
    rw [happ]
    exact flatMap_sublist_left _ hsub
  refine ⟨_, _, hout, ?_, hnew, ?_⟩
  · have h0' : matchTemplate corr rsrc ({ st with thr_corr := thr2 } : State).tmpl_gray_p =
        some t0 := h0
    have h1' : matchTemplate corr rsrc ({ st with thr_corr := thr2 } : State).tmpl_gray_n =
        some t1 := h1
    unfold perform_match
    simp only [h0', h1', hd]
    rw [← hrt, hrun]
  · rw [hout]
    exact List.Sublist.append (List.Sublist.refl _) hnew

/-- C9 on the 9 x 9 rendering of `PATTERN_A`, with `thr_corr` raised from 1/2
to 3/4. -/
theorem perform_match_thr_monotone_witness :
    ∃ rtmatch : Mat ℚ, ∃ new1 new2,
      [(⟨⟨4, 4⟩, 2, 226, 0, 0, 1⟩ : landmark_info_t)] = [] ++ new1 ∧
      perform_match { demo_state with thr_corr := 3 / 4 } corr_demo id demo_bgr demo_gray [] =
        some (rtmatch, [] ++ new2) ∧
      List.Sublist new2 new1 ∧
      List.Sublist ([] ++ new2) [(⟨⟨4, 4⟩, 2, 226, 0, 0, 1⟩ : landmark_info_t)] :=
  (exists_rtmatch
    (perform_match { demo_state with thr_corr := 1 / 2 } corr_demo id demo_bgr demo_gray [])
    [⟨⟨4, 4⟩, 2, 226, 0, 0, 1⟩] (by decide!)).elim
    (fun rt h => ⟨rt, perform_match_thr_monotone demo_state (1 / 2) (3 / 4) (by norm_num)
      corr_demo id demo_bgr demo_gray [] _ rt h⟩)

/-! ## C10: flat images -/

/-- On a matrix whose pixels are all equal, `minMaxLoc` returns twice the same
value. -/
theorem minMaxLoc_flat (m : Mat Nat) (v : Nat) (hflat : ∀ r c, m.data r c = v) :
    (minMaxLoc m).2 - (minMaxLoc m).1 = 0 := by
  have hall : ∀ x ∈ m.pixels, x = v := by
    intro x hx
    obtain ⟨r, c, -, he⟩ := (mem_pixels m x).1 hx
    rw [← he, hflat]
  obtain ⟨-, -, a3⟩ := foldl_min_spec m.pixels (m.pixels.headD 0)
  obtain ⟨-, -, b3⟩ := foldl_max_spec m.pixels (m.pixels.headD 0)
  have hmin : m.pixels.foldl min (m.pixels.headD 0) = m.pixels.headD 0 := by
    rcases a3 with h | h
    · exact h
    · cases hl : m.pixels with
      | nil => rw [hl] at h; exact absurd h (List.not_mem_nil _)
      | cons a t =>
        have ha : a = v := hall a (by rw [hl]; exact List.mem_cons_self _ _)
        rw [← hl, hall _ h, hl]
        simp [ha]
  have hmax : m.pixels.foldl max (m.pixels.headD 0) = m.pixels.headD 0 := by
    rcases b3 with h | h
    · exact h
    · cases hl : m.pixels with
      | nil => rw [hl] at h; exact absurd h (List.not_mem_nil _)
      | cons a t =>
        have ha : a = v := hall a (by rw [hl]; exact List.mem_cons_self _ _)
        rw [← hl, hall _ h, hl]
        simp [ha]
  simp only [minMaxLoc, hmin, hmax, sub_self]

/-- C10, as the code has it: on a flat grayscale image and with
`thr_pix_rng >= 0` (which `init` stores as given), a call of `perform_match`
appends no landmark, whatever `thr_corr` and `thr_pix_min` are; and on a flat
image at least as large as the template the call does return, with `rinfo`
unchanged. -/
theorem perform_match_flat (k : Int) (thr_corr : ℚ) (thr_pix_rng thr_pix_min : Int)
    (en : Bool) (corr : Mat Nat → Mat Nat → Int → Int → ℚ)
    (bf : Mat (Vec3 Nat) → Mat (Vec3 Nat)) (rsrc_bgr : Mat (Vec3 Nat)) (rsrc : Mat Nat)
    (rinfo : List landmark_info_t) (v : Nat)
    (hrng : 0 ≤ thr_pix_rng) (hflat : ∀ r c, rsrc.data r c = v) :
    (∀ rtmatch out,
      perform_match (set_color_id_enabled (init k thr_corr thr_pix_rng thr_pix_min) en)
        corr bf rsrc_bgr rsrc rinfo = some (rtmatch, out) → out = rinfo) ∧
    (((init k thr_corr thr_pix_rng thr_pix_min).kdim ≤ rsrc.rows ∧
        (init k thr_corr thr_pix_rng thr_pix_min).kdim ≤ rsrc.cols) →
      ∃ rtmatch,
        perform_match (set_color_id_enabled (init k thr_corr thr_pix_rng thr_pix_min) en)
          corr bf rsrc_bgr rsrc rinfo = some (rtmatch, rinfo)) := by
  have hnone : ∀ (t0 t1 : Mat ℚ) (p : Point),
      appended_at (set_color_id_enabled (init k thr_corr thr_pix_rng thr_pix_min) en)
        bf rsrc_bgr rsrc t0 t1 p = [] := by
    intro t0 t1 p
    apply List.eq_nil_iff_forall_not_mem.2
    intro lm hlm
    obtain ⟨img_roi, img_roi_bgr, hroi, -, ht, -⟩ := (mem_appended_at _ bf rsrc_bgr rsrc t0 t1 p lm).1 hlm
    obtain ⟨-, -, hdata, -⟩ := roi_some rsrc _ img_roi hroi
    have hz := minMaxLoc_flat img_roi v (fun r c => by rw [hdata, hflat])
    rw [hz] at ht
    have ht' : thr_pix_rng < 0 := ht
    omega
  have hflatMap : ∀ (t0 t1 : Mat ℚ) (pts : List Point),
      pts.flatMap (appended_at (set_color_id_enabled (init k thr_corr thr_pix_rng thr_pix_min) en)
        bf rsrc_bgr rsrc t0 t1) = [] := by
    intro t0 t1 pts
    induction pts with
    | nil => rfl
    | cons p rest ih => rw [List.flatMap_cons, hnone, ih]; rfl
  constructor
  · intro rtmatch out h
    obtain ⟨t0, t1, d, -, -, -, -, hout, -⟩ := perform_match_some _ corr bf rsrc_bgr rsrc _ _ _ h
    rw [hout, hflatMap, List.append_nil]
  · rintro ⟨hrows, hcols⟩
    obtain ⟨hsr, hsc, hnr, hnc⟩ := init_tmpl_size k thr_corr thr_pix_rng thr_pix_min
    obtain ⟨-, hk9, -⟩ := init_kdim_bounds k thr_corr thr_pix_rng thr_pix_min
    have hp : (set_color_id_enabled (init k thr_corr thr_pix_rng thr_pix_min) en).tmpl_gray_p =
        (init k thr_corr thr_pix_rng thr_pix_min).tmpl_gray_p := rfl
    have hn : (set_color_id_enabled (init k thr_corr thr_pix_rng thr_pix_min) en).tmpl_gray_n =
        (init k thr_corr thr_pix_rng thr_pix_min).tmpl_gray_n := rfl
    have hm0 : matchTemplate corr rsrc (init k thr_corr thr_pix_rng thr_pix_min).tmpl_gray_p =
        some ⟨rsrc.rows - (init k thr_corr thr_pix_rng thr_pix_min).kdim + 1,
          rsrc.cols - (init k thr_corr thr_pix_rng thr_pix_min).kdim + 1,
          corr rsrc (init k thr_corr thr_pix_rng thr_pix_min).tmpl_gray_p⟩ := by
      unfold matchTemplate
      rw [hsr, hsc, if_neg (by omega)]
    have hm1 : matchTemplate corr rsrc (init k thr_corr thr_pix_rng thr_pix_min).tmpl_gray_n =
        some ⟨rsrc.rows - (init k thr_corr thr_pix_rng thr_pix_min).kdim + 1,
          rsrc.cols - (init k thr_corr thr_pix_rng thr_pix_min).kdim + 1,
          corr rsrc (init k thr_corr thr_pix_rng thr_pix_min).tmpl_gray_n⟩ := by
      unfold matchTemplate
      rw [hnr, hnc, if_neg (by omega)]
    unfold perform_match
    rw [hp, hn, hm0, hm1]
    simp only [Mat.sub, and_self, if_true]
    rw [check_maxima_total, hflatMap, List.append_nil]
    · exact ⟨_, rfl⟩
    · intro p hpm
      apply (check_maximum_ne_none _ bf rsrc_bgr rsrc _ _ p).2
      obtain ⟨hin, -⟩ := (mem_maxima_pts _ _ p).1 hpm
      obtain ⟨i1, i2, i3, i4⟩ := hin
      simp only [Mat.abs] at i2 i4
      have hroi : rsrc.roi
          (roi_at (set_color_id_enabled (init k thr_corr thr_pix_rng thr_pix_min) en) p) =
          some ⟨(init k thr_corr thr_pix_rng thr_pix_min).kdim,
            (init k thr_corr thr_pix_rng thr_pix_min).kdim,
            fun r c => rsrc.data (p.y + r) (p.x + c)⟩ := by
        unfold Mat.roi roi_at
        rw [hp, hsr, hsc]
        simp only []
        rw [if_pos (by omega)]
      refine ⟨_, hroi, ?_⟩
      intro ht
      have hz := minMaxLoc_flat (⟨(init k thr_corr thr_pix_rng thr_pix_min).kdim,
            (init k thr_corr thr_pix_rng thr_pix_min).kdim,
            fun r c => rsrc.data (p.y + r) (p.x + c)⟩ : Mat Nat) v (fun r c => by simp only [hflat])
      rw [hz] at ht
      have ht' : thr_pix_rng < 0 := ht.1
      omega

/-- C10 on a flat 9 x 9 image of gray level 50, with the default thresholds. -/
theorem perform_match_flat_witness :
    (∀ rtmatch out,
      perform_match (set_color_id_enabled (init 9 (1 / 2) 45 80) true)
        corr_flat id flat_bgr flat_gray [] = some (rtmatch, out) → out = []) ∧
    (((init 9 (1 / 2) 45 80).kdim ≤ flat_gray.rows ∧
        (init 9 (1 / 2) 45 80).kdim ≤ flat_gray.cols) →
      ∃ rtmatch,
        perform_match (set_color_id_enabled (init 9 (1 / 2) 45 80) true)
          corr_flat id flat_bgr flat_gray [] = some (rtmatch, [])) :=
  perform_match_flat 9 (1 / 2) 45 80 true corr_flat id flat_bgr flat_gray [] 50 (by decide)
    (fun r c => by
      simp only [flat_gray, cvtColor_BGR2GRAY, flat_bgr]
      split_ifs <;> rfl)

/-- C10 fails as stated: after `init(9, -0.5, -1, 80)` a flat image of gray
level 50 (correlation 0 everywhere) yields a landmark, because the range 0 of
its region does exceed `thr_pix_rng = -1`. -/
theorem perform_match_flat_counterexample :
    (∀ r c, flat_gray.data r c = 50) ∧
    (perform_match (init 9 (-1 / 2) (-1) 80) corr_flat id flat_bgr flat_gray []).map Prod.snd =
      some [⟨⟨4, 4⟩, 0, 0, 50, 0, 1⟩] :=
  ⟨fun r c => by
      simp only [flat_gray, cvtColor_BGR2GRAY, flat_bgr]
      split_ifs <;> rfl,
    by decide!⟩

/-! ## `identify_colors`: the classification of the two corners -/

theorem minMaxLoc3_bounds (p : Vec3 ℚ) :
    (minMaxLoc3 p).1 ≤ p.v0 ∧ (minMaxLoc3 p).1 ≤ p.v1 ∧ (minMaxLoc3 p).1 ≤ p.v2 ∧
    p.v0 ≤ (minMaxLoc3 p).2 ∧ p.v1 ≤ (minMaxLoc3 p).2 ∧ p.v2 ≤ (minMaxLoc3 p).2 := by
  simp only [minMaxLoc3]
  refine ⟨min_le_left _ _, ?_, ?_, le_max_left _ _, ?_, ?_⟩
  · exact le_trans (min_le_right _ _) (min_le_left _ _)
  · exact le_trans (min_le_right _ _) (min_le_right _ _)
  · exact le_trans (le_max_left _ _) (le_max_right _ _)
  · exact le_trans (le_max_right _ _) (le_max_right _ _)

theorem scale_bounds (x mn mx : ℚ) (h1 : mn ≤ x) (h2 : x ≤ mx) :
    0 ≤ x * ((1 - 0) * (if DBL_EPSILON < mx - mn then 1 / (mx - mn) else 0)) +
        (0 - mn * ((1 - 0) * (if DBL_EPSILON < mx - mn then 1 / (mx - mn) else 0))) ∧
    x * ((1 - 0) * (if DBL_EPSILON < mx - mn then 1 / (mx - mn) else 0)) +
        (0 - mn * ((1 - 0) * (if DBL_EPSILON < mx - mn then 1 / (mx - mn) else 0))) ≤ 1 := by
  split_ifs with h
  · have hpos : 0 < mx - mn := lt_trans (by norm_num [DBL_EPSILON]) h
    have he : x * ((1 - 0) * (1 / (mx - mn))) + (0 - mn * ((1 - 0) * (1 / (mx - mn)))) =
        (x - mn) / (mx - mn) := by
      field_simp
      ring
    rw [he]
    constructor
    · exact div_nonneg (by linarith) (le_of_lt hpos)
    · rw [div_le_one hpos]
      linarith
  · norm_num

/-- The channels of a min-max-normalized pixel lie in [0, 1]. -/
theorem normalize_minmax_bounds (p : Vec3 ℚ) :
    (0 ≤ (normalize_minmax p).v0 ∧ (normalize_minmax p).v0 ≤ 1) ∧
    (0 ≤ (normalize_minmax p).v1 ∧ (normalize_minmax p).v1 ≤ 1) ∧
    (0 ≤ (normalize_minmax p).v2 ∧ (normalize_minmax p).v2 ≤ 1) := by
  obtain ⟨a0, a1, a2, b0, b1, b2⟩ := minMaxLoc3_bounds p
  simp only [normalize_minmax]
  exact ⟨scale_bounds _ _ _ a0 b0, scale_bounds _ _ _ a1 b1, scale_bounds _ _ _ a2 b2⟩

theorem norm_ycm_zero : norm_ycm 0 = ⟨0, 1, 1⟩ := rfl

theorem norm_ycm_one : norm_ycm 1 = ⟨1, 0, 1⟩ := rfl

theorem norm_ycm_two : norm_ycm 2 = ⟨1, 1, 0⟩ := rfl

/-- A normalized pixel is at squared distance at most 3, hence below the
initial `3.0 ^ 2` of the loop, from each reference vector. -/
theorem normL2Sqr_lt (p : Vec3 ℚ) :
    normL2Sqr (normalize_minmax p) (norm_ycm 0) < 3 ^ 2 ∧
    normL2Sqr (normalize_minmax p) (norm_ycm 1) < 3 ^ 2 ∧
    normL2Sqr (normalize_minmax p) (norm_ycm 2) < 3 ^ 2 := by
  obtain ⟨⟨a0, a1⟩, ⟨b0, b1⟩, ⟨c0, c1⟩⟩ := normalize_minmax_bounds p
  simp only [normL2Sqr, norm_ycm_zero, norm_ycm_one, norm_ycm_two]
  refine ⟨?_, ?_, ?_⟩ <;> nlinarith

theorem normL2Sqr_nonneg (a b : Vec3 ℚ) : 0 ≤ normL2Sqr a b := by
  unfold normL2Sqr
  positivity

/-- The loop of `identify_colors` treats the two corners separately. -/
theorem classify_fold_split (p0 p1 : Vec3 ℚ) (l : List Int) :
    ∀ s : ℚ × ℚ × landmark_info_t,
      ((l.foldl (classify_step p0 p1) s).1, (l.foldl (classify_step p0 p1) s).2.2.c0) =
        l.foldl (classify_one p0) (s.1, s.2.2.c0) ∧
      ((l.foldl (classify_step p0 p1) s).2.1, (l.foldl (classify_step p0 p1) s).2.2.c1) =
        l.foldl (classify_one p1) (s.2.1, s.2.2.c1) := by
  induction l with
  | nil => intro s; exact ⟨rfl, rfl⟩
  | cons i rest ih =>
    intro s
    obtain ⟨e0, e1⟩ := ih (classify_step p0 p1 s i)
    simp only [List.foldl_cons]
    rw [e0, e1]
    constructor
    · congr 1
      simp only [classify_step, classify_one]
      split_ifs <;> rfl
    · congr 1
      simp only [classify_step, classify_one]
      split_ifs <;> rfl

/-- Three passes of the one-corner loop, started above every distance, end on
the smallest index at minimal distance. -/
theorem classify_one_fold (p : Vec3 ℚ) (c : Int) (q : ℚ)
    (h0 : normL2Sqr p (norm_ycm 0) < q) :
    ([0, 1, 2].foldl (classify_one p) (q, c)).2 = nearest_ycm p := by
  simp only [List.foldl_cons, List.foldl_nil, classify_one, nearest_ycm, if_pos h0]
  split_ifs with h1 h2 h3 h4 h5 h6 h7 h8 h9 <;>
    first
    | rfl
    | (exfalso; simp only [not_and_or, not_le, not_lt] at *; linarith)
    | (exfalso; simp only [not_and_or, not_le, not_lt] at *
       rcases ‹_ ∨ _› with h | h <;> linarith)

theorem nearest_ycm_range (p : Vec3 ℚ) :
    nearest_ycm p = 0 ∨ nearest_ycm p = 1 ∨ nearest_ycm p = 2 := by
  unfold nearest_ycm
  split_ifs <;> simp

/-- What `identify_colors` computes: nothing when a corner fails the gate,
else the nearest reference vector of each normalized corner. -/
theorem identify_colors_eq (st : State) (rimg : Mat (Vec3 Nat)) (rinfo : landmark_info_t) :
    identify_colors st rimg rinfo =
      if passes_gate (sample_corners st rimg rinfo).1 ∧
          passes_gate (sample_corners st rimg rinfo).2 then
        { rinfo with
          c0 := nearest_ycm (normalize_minmax (sample_corners st rimg rinfo).1.toFloat)
          c1 := nearest_ycm (normalize_minmax (sample_corners st rimg rinfo).2.toFloat) }
      else rinfo := by
  by_cases hg : passes_gate (sample_corners st rimg rinfo).1 ∧
      passes_gate (sample_corners st rimg rinfo).2
  · rw [if_pos hg]
    have hcond : (12 / 10 : ℚ) < norm_sum (sample_corners st rimg rinfo).1 ∧
        (12 / 10 : ℚ) < norm_sum (sample_corners st rimg rinfo).2 ∧
        (20 : ℚ) < chan_range (sample_corners st rimg rinfo).1 ∧
        (20 : ℚ) < chan_range (sample_corners st rimg rinfo).2 :=
      ⟨hg.1.1, hg.2.1, hg.1.2, hg.2.2⟩
    simp only [norm_sum, chan_range] at hcond
    simp only [identify_colors]
    rw [if_pos hcond]
    obtain ⟨f1, f2, f3, f4, -, -⟩ := classify_fold_fields
      (normalize_minmax (sample_corners st rimg rinfo).1.toFloat)
      (normalize_minmax (sample_corners st rimg rinfo).2.toFloat) [0, 1, 2] (3 ^ 2, 3 ^ 2, rinfo)
    obtain ⟨g0, g1⟩ := classify_fold_split
      (normalize_minmax (sample_corners st rimg rinfo).1.toFloat)
      (normalize_minmax (sample_corners st rimg rinfo).2.toFloat) [0, 1, 2] (3 ^ 2, 3 ^ 2, rinfo)
    have c0 := congrArg Prod.snd g0
    have c1 := congrArg Prod.snd g1
    simp only [] at c0 c1 f1 f2 f3 f4
    rw [classify_one_fold _ _ _ (normL2Sqr_lt _).1] at c0 c1
    generalize ([0, 1, 2].foldl
      (classify_step (normalize_minmax (sample_corners st rimg rinfo).1.toFloat)
        (normalize_minmax (sample_corners st rimg rinfo).2.toFloat))
      (3 ^ 2, 3 ^ 2, rinfo)).2.2 = r at f1 f2 f3 f4 c0 c1
    cases r
    cases rinfo
    simp only [landmark_info_t.mk.injEq] at f1 f2 f3 f4 c0 c1 ⊢
    exact ⟨f1, f2, f3, f4, c0, c1⟩
  · rw [if_neg hg]
    simp only [identify_colors]
    rw [if_neg]
    intro hcond
    exact hg ⟨⟨hcond.1, hcond.2.2.1⟩, ⟨hcond.2.1, hcond.2.2.2⟩⟩

/-! ## C5: nearest reference vector, earliest on ties, corner by corner -/

/-- The index `nearest_ycm p` is at minimal distance from `p` among 0, 1, 2 and
every smaller index is strictly farther. -/
theorem nearest_ycm_spec (p : Vec3 ℚ) :
    (0 ≤ nearest_ycm p ∧ nearest_ycm p ≤ 2) ∧
    (∀ j : Int, 0 ≤ j → j ≤ 2 →
      normL2Sqr p (norm_ycm (nearest_ycm p)) ≤ normL2Sqr p (norm_ycm j)) ∧
    (∀ j : Int, 0 ≤ j → j < nearest_ycm p →
      normL2Sqr p (norm_ycm (nearest_ycm p)) < normL2Sqr p (norm_ycm j)) := by
  unfold nearest_ycm
  split_ifs with h1 h2
  · refine ⟨by decide, ?_, ?_⟩
    · intro j hj0 hj2
      interval_cases j
      · exact le_refl _
      · exact h1.1
      · exact h1.2
    · intro j hj0 hj
      omega
  · refine ⟨by decide, ?_, ?_⟩
    · intro j hj0 hj2
      simp only [not_and_or, not_le] at h1
      interval_cases j
      · rcases h1 with h | h <;> linarith
      · exact le_refl _
      · exact h2
    · intro j hj0 hj
      simp only [not_and_or, not_le] at h1
      interval_cases j
      rcases h1 with h | h <;> linarith
  · refine ⟨by decide, ?_, ?_⟩
    · intro j hj0 hj2
      simp only [not_and_or, not_le] at h1 h2
      interval_cases j
      · rcases h1 with h | h <;> linarith
      · linarith
      · exact le_refl _
    · intro j hj0 hj
      simp only [not_and_or, not_le] at h1 h2
      interval_cases j
      · rcases h1 with h | h <;> linarith
      · exact h2

/-- C5: when both corners pass the gate, `c0` is the smallest index in
{0, 1, 2} that minimises the Euclidean distance (the square root of
`normL2Sqr`) between the normalized first corner and the reference vectors
(0,1,1), (1,0,1), (1,1,0): no index is nearer and every smaller index is
strictly farther; `c1` is the same function `nearest_ycm` of the second
corner.  Hence `c0` is the same in any other call that passes the gate with the
same first corner, and `c1` with the same second corner. -/
theorem identify_colors_nearest (st : State) (rimg : Mat (Vec3 Nat)) (rinfo : landmark_info_t)
    (hg : passes_gate (sample_corners st rimg rinfo).1 ∧
      passes_gate (sample_corners st rimg rinfo).2) :
    (norm_ycm 0 = ⟨0, 1, 1⟩ ∧ norm_ycm 1 = ⟨1, 0, 1⟩ ∧ norm_ycm 2 = ⟨1, 1, 0⟩) ∧
    ((identify_colors st rimg rinfo).c0 =
        nearest_ycm (normalize_minmax (sample_corners st rimg rinfo).1.toFloat) ∧
      (identify_colors st rimg rinfo).c1 =
        nearest_ycm (normalize_minmax (sample_corners st rimg rinfo).2.toFloat)) ∧
    ((0 ≤ (identify_colors st rimg rinfo).c0 ∧ (identify_colors st rimg rinfo).c0 ≤ 2) ∧
      (∀ j : Int, 0 ≤ j → j ≤ 2 →
        Real.sqrt (normL2Sqr (normalize_minmax (sample_corners st rimg rinfo).1.toFloat)
          (norm_ycm (identify_colors st rimg rinfo).c0) : ℚ) ≤
        Real.sqrt (normL2Sqr (normalize_minmax (sample_corners st rimg rinfo).1.toFloat)
          (norm_ycm j) : ℚ)) ∧
      (∀ j : Int, 0 ≤ j → j < (identify_colors st rimg rinfo).c0 →
        Real.sqrt (normL2Sqr (normalize_minmax (sample_corners st rimg rinfo).1.toFloat)
          (norm_ycm (identify_colors st rimg rinfo).c0) : ℚ) <
        Real.sqrt (normL2Sqr (normalize_minmax (sample_corners st rimg rinfo).1.toFloat)
          (norm_ycm j) : ℚ))) ∧
    ((0 ≤ (identify_colors st rimg rinfo).c1 ∧ (identify_colors st rimg rinfo).c1 ≤ 2) ∧
      (∀ j : Int, 0 ≤ j → j ≤ 2 →
        Real.sqrt (normL2Sqr (normalize_minmax (sample_corners st rimg rinfo).2.toFloat)
          (norm_ycm (identify_colors st rimg rinfo).c1) : ℚ) ≤
        Real.sqrt (normL2Sqr (normalize_minmax (sample_corners st rimg rinfo).2.toFloat)
          (norm_ycm j) : ℚ)) ∧
      (∀ j : Int, 0 ≤ j → j < (identify_colors st rimg rinfo).c1 →
        Real.sqrt (normL2Sqr (normalize_minmax (sample_corners st rimg rinfo).2.toFloat)
          (norm_ycm (identify_colors st rimg rinfo).c1) : ℚ) <
        Real.sqrt (normL2Sqr (normalize_minmax (sample_corners st rimg rinfo).2.toFloat)
          (norm_ycm j) : ℚ))) ∧
    (∀ (st2 : State) (rimg2 : Mat (Vec3 Nat)) (rinfo2 : landmark_info_t),
      (passes_gate (sample_corners st2 rimg2 rinfo2).1 ∧
        passes_gate (sample_corners st2 rimg2 rinfo2).2) →
      ((sample_corners st2 rimg2 rinfo2).1 = (sample_corners st rimg rinfo).1 →
        (identify_colors st2 rimg2 rinfo2).c0 = (identify_colors st rimg rinfo).c0) ∧
      ((sample_corners st2 rimg2 rinfo2).2 = (sample_corners st rimg rinfo).2 →
        (identify_colors st2 rimg2 rinfo2).c1 = (identify_colors st rimg rinfo).c1)) := by
  have e0 : (identify_colors st rimg rinfo).c0 =
      nearest_ycm (normalize_minmax (sample_corners st rimg rinfo).1.toFloat) := by
    rw [identify_colors_eq, if_pos hg]
  have e1 : (identify_colors st rimg rinfo).c1 =
      nearest_ycm (normalize_minmax (sample_corners st rimg rinfo).2.toFloat) := by
    rw [identify_colors_eq, if_pos hg]
  obtain ⟨a1, a2, a3⟩ :=
    nearest_ycm_spec (normalize_minmax (sample_corners st rimg rinfo).1.toFloat)
  obtain ⟨b1, b2, b3⟩ :=
    nearest_ycm_spec (normalize_minmax (sample_corners st rimg rinfo).2.toFloat)
  rw [← e0] at a1 a2 a3
  rw [← e1] at b1 b2 b3
  refine ⟨⟨rfl, rfl, rfl⟩, ⟨e0, e1⟩, ⟨a1, ?_, ?_⟩, ⟨b1, ?_, ?_⟩, ?_⟩
  · intro j hj0 hj2
    exact Real.sqrt_le_sqrt (by exact_mod_cast a2 j hj0 hj2)
  · intro j hj0 hj
    exact Real.sqrt_lt_sqrt (by exact_mod_cast normL2Sqr_nonneg _ _)
      (by exact_mod_cast a3 j hj0 hj)
  · intro j hj0 hj2
    exact Real.sqrt_le_sqrt (by exact_mod_cast b2 j hj0 hj2)
  · intro j hj0 hj
    exact Real.sqrt_lt_sqrt (by exact_mod_cast normL2Sqr_nonneg _ _)
      (by exact_mod_cast b3 j hj0 hj)
  · intro st2 rimg2 rinfo2 hg2
    constructor
    · intro hsame
      rw [e0, identify_colors_eq, if_pos hg2]
      simp only [hsame]
    · intro hsame
      rw [e1, identify_colors_eq, if_pos hg2]
      simp only [hsame]

/-- C5 on the 9 x 9 rendering of `PATTERN_A`: both corners pass the gate, and
`c0`, `c1` are the nearest reference vectors of the two corners. -/
theorem identify_colors_nearest_witness :
    (passes_gate (sample_corners demo_state demo_bgr demo_info).1 ∧
      passes_gate (sample_corners demo_state demo_bgr demo_info).2) ∧
    ((identify_colors demo_state demo_bgr demo_info).c0 =
        nearest_ycm (normalize_minmax (sample_corners demo_state demo_bgr demo_info).1.toFloat) ∧
      (identify_colors demo_state demo_bgr demo_info).c1 =
        nearest_ycm (normalize_minmax (sample_corners demo_state demo_bgr demo_info).2.toFloat)) :=
  ⟨by decide!, (identify_colors_nearest demo_state demo_bgr demo_info (by decide!)).2.1⟩

/-! ## C6: the corners that `identify_colors` samples -/

/-- C6: for a positive `diff`, `identify_colors` classifies into `c0` the
top-right pixel (row 0, column `kdim - 1`) and into `c1` the bottom-left pixel
(row `kdim - 1`, column 0) of the region, and reads no other pixel; for a
negative `diff` (and for `diff = 0`) it classifies into `c0` the top-left pixel
(row 0, column 0) and into `c1` the bottom-right pixel (row `kdim - 1`, column
`kdim - 1`). -/
theorem identify_colors_corners (st : State) (rimg : Mat (Vec3 Nat)) (rinfo : landmark_info_t) :
    (0 < rinfo.diff →
      sample_corners st rimg rinfo = (rimg.data 0 (st.kdim - 1), rimg.data (st.kdim - 1) 0) ∧
      identify_colors st rimg rinfo =
        if passes_gate (rimg.data 0 (st.kdim - 1)) ∧ passes_gate (rimg.data (st.kdim - 1) 0) then
          { rinfo with
            c0 := nearest_ycm (normalize_minmax (rimg.data 0 (st.kdim - 1)).toFloat)
            c1 := nearest_ycm (normalize_minmax (rimg.data (st.kdim - 1) 0).toFloat) }
        else rinfo) ∧
    (rinfo.diff < 0 →
      sample_corners st rimg rinfo =
        (rimg.data 0 0, rimg.data (st.kdim - 1) (st.kdim - 1)) ∧
      identify_colors st rimg rinfo =
        if passes_gate (rimg.data 0 0) ∧ passes_gate (rimg.data (st.kdim - 1) (st.kdim - 1)) then
          { rinfo with
            c0 := nearest_ycm (normalize_minmax (rimg.data 0 0).toFloat)
            c1 := nearest_ycm
              (normalize_minmax (rimg.data (st.kdim - 1) (st.kdim - 1)).toFloat) }
        else rinfo) ∧
    (rinfo.diff = 0 →
      sample_corners st rimg rinfo =
        (rimg.data 0 0, rimg.data (st.kdim - 1) (st.kdim - 1))) := by
  refine ⟨?_, ?_, ?_⟩
  · intro hpos
    have hs : sample_corners st rimg rinfo =
        (rimg.data 0 (st.kdim - 1), rimg.data (st.kdim - 1) 0) := by
      unfold sample_corners
      rw [if_pos hpos]
    refine ⟨hs, ?_⟩
    rw [identify_colors_eq, hs]
  · intro hneg
    have hs : sample_corners st rimg rinfo =
        (rimg.data 0 0, rimg.data (st.kdim - 1) (st.kdim - 1)) := by
      unfold sample_corners
      rw [if_neg (not_lt.2 (le_of_lt hneg))]
    refine ⟨hs, ?_⟩
    rw [identify_colors_eq, hs]
  · intro hz
    unfold sample_corners
    rw [if_neg (by rw [hz]; exact lt_irrefl _)]

/-- C6 on the 9 x 9 rendering of `PATTERN_A`, whose `diff` is 2: the corners
read are the yellow pixel at (row 0, column 8) and the magenta pixel at
(row 8, column 0). -/
theorem identify_colors_corners_witness :
    (sample_corners demo_state demo_bgr demo_info =
        (demo_bgr.data 0 (demo_state.kdim - 1), demo_bgr.data (demo_state.kdim - 1) 0) ∧
      identify_colors demo_state demo_bgr demo_info =
        if passes_gate (demo_bgr.data 0 (demo_state.kdim - 1)) ∧
            passes_gate (demo_bgr.data (demo_state.kdim - 1) 0) then
          { demo_info with
            c0 := nearest_ycm (normalize_minmax (demo_bgr.data 0 (demo_state.kdim - 1)).toFloat)
            c1 := nearest_ycm
              (normalize_minmax (demo_bgr.data (demo_state.kdim - 1) 0).toFloat) }
        else demo_info) ∧
    demo_bgr.data 0 (demo_state.kdim - 1) = ⟨0, 255, 255⟩ ∧
    demo_bgr.data (demo_state.kdim - 1) 0 = ⟨255, 0, 255⟩ :=
  ⟨(identify_colors_corners demo_state demo_bgr demo_info).1 (by decide!), by decide!,
    by decide!⟩

/-! ## `perform_match` returns on images that hold the template -/

/-- After `init`, on a grayscale image of at least `kdim x kdim` pixels and a
colour image at least as large, the correlation map has
`(rows - kdim + 1) x (cols - kdim + 1)` pixels and `perform_match` returns. -/
theorem perform_match_total (k : Int) (thr_corr : ℚ) (thr_pix_rng thr_pix_min : Int)
    (en : Bool) (corr : Mat Nat → Mat Nat → Int → Int → ℚ)
    (bf : Mat (Vec3 Nat) → Mat (Vec3 Nat)) (rsrc_bgr : Mat (Vec3 Nat)) (rsrc : Mat Nat)
    (rinfo : List landmark_info_t)
    (hrows : (init k thr_corr thr_pix_rng thr_pix_min).kdim ≤ rsrc.rows)
    (hcols : (init k thr_corr thr_pix_rng thr_pix_min).kdim ≤ rsrc.cols)
    (hbr : rsrc.rows ≤ rsrc_bgr.rows) (hbc : rsrc.cols ≤ rsrc_bgr.cols) :
    ∃ rtmatch out,
      perform_match (set_color_id_enabled (init k thr_corr thr_pix_rng thr_pix_min) en)
        corr bf rsrc_bgr rsrc rinfo = some (rtmatch, out) ∧
      rtmatch.rows = rsrc.rows - (init k thr_corr thr_pix_rng thr_pix_min).kdim + 1 ∧
      rtmatch.cols = rsrc.cols - (init k thr_corr thr_pix_rng thr_pix_min).kdim + 1 := by
  obtain ⟨hsr, hsc, hnr, hnc⟩ := init_tmpl_size k thr_corr thr_pix_rng thr_pix_min
  obtain ⟨-, hk9, -⟩ := init_kdim_bounds k thr_corr thr_pix_rng thr_pix_min
  have hp : (set_color_id_enabled (init k thr_corr thr_pix_rng thr_pix_min) en).tmpl_gray_p =
      (init k thr_corr thr_pix_rng thr_pix_min).tmpl_gray_p := rfl
  have hn : (set_color_id_enabled (init k thr_corr thr_pix_rng thr_pix_min) en).tmpl_gray_n =
      (init k thr_corr thr_pix_rng thr_pix_min).tmpl_gray_n := rfl
  have hm0 : matchTemplate corr rsrc (init k thr_corr thr_pix_rng thr_pix_min).tmpl_gray_p =
      some ⟨rsrc.rows - (init k thr_corr thr_pix_rng thr_pix_min).kdim + 1,
        rsrc.cols - (init k thr_corr thr_pix_rng thr_pix_min).kdim + 1,
        corr rsrc (init k thr_corr thr_pix_rng thr_pix_min).tmpl_gray_p⟩ := by
    unfold matchTemplate
    rw [hsr, hsc, if_neg (by omega)]
  have hm1 : matchTemplate corr rsrc (init k thr_corr thr_pix_rng thr_pix_min).tmpl_gray_n =
      some ⟨rsrc.rows - (init k thr_corr thr_pix_rng thr_pix_min).kdim + 1,
        rsrc.cols - (init k thr_corr thr_pix_rng thr_pix_min).kdim + 1,
        corr rsrc (init k thr_corr thr_pix_rng thr_pix_min).tmpl_gray_n⟩ := by
    unfold matchTemplate
    rw [hnr, hnc, if_neg (by omega)]
  unfold perform_match
  rw [hp, hn, hm0, hm1]
  simp only [Mat.sub, and_self, if_true]
  rw [check_maxima_total]
  · exact ⟨_, _, rfl, rfl, rfl⟩
  · intro p hpm
    apply (check_maximum_ne_none _ bf rsrc_bgr rsrc _ _ p).2
    obtain ⟨hin, -⟩ := (mem_maxima_pts _ _ p).1 hpm
    obtain ⟨i1, i2, i3, i4⟩ := hin
    simp only [Mat.abs] at i2 i4
    have hroi : rsrc.roi
        (roi_at (set_color_id_enabled (init k thr_corr thr_pix_rng thr_pix_min) en) p) =
        some ⟨(init k thr_corr thr_pix_rng thr_pix_min).kdim,
          (init k thr_corr thr_pix_rng thr_pix_min).kdim,
          fun r c => rsrc.data (p.y + r) (p.x + c)⟩ := by
      unfold Mat.roi roi_at
      rw [hp, hsr, hsc]
      simp only []
      rw [if_pos (by omega)]
    have hroib : rsrc_bgr.roi
        (roi_at (set_color_id_enabled (init k thr_corr thr_pix_rng thr_pix_min) en) p) =
        some ⟨(init k thr_corr thr_pix_rng thr_pix_min).kdim,
          (init k thr_corr thr_pix_rng thr_pix_min).kdim,
          fun r c => rsrc_bgr.data (p.y + r) (p.x + c)⟩ := by
      unfold Mat.roi roi_at
      rw [hp, hsr, hsc]
      simp only []
      rw [if_pos (by omega)]
    exact ⟨_, hroi, fun _ => ⟨_, hroib⟩⟩

/-! ## C12: what `init` stores -/

/-- C12, as the code has it: `init` accepts every argument; it rails `k` alone
(the stored `kdim` lies in 9..15) and stores `thr_corr`, `thr_pix_rng` and
`thr_pix_min` exactly as they are given, in range or not. -/
theorem init_stores_thresholds (k : Int) (thr_corr : ℚ) (thr_pix_rng thr_pix_min : Int) :
    (init k thr_corr thr_pix_rng thr_pix_min).thr_corr = thr_corr ∧
    (init k thr_corr thr_pix_rng thr_pix_min).thr_pix_rng = thr_pix_rng ∧
    (init k thr_corr thr_pix_rng thr_pix_min).thr_pix_min = thr_pix_min ∧
    9 ≤ (init k thr_corr thr_pix_rng thr_pix_min).kdim ∧
    (init k thr_corr thr_pix_rng thr_pix_min).kdim ≤ 15 :=
  ⟨rfl, rfl, rfl, (init_kdim_bounds k thr_corr thr_pix_rng thr_pix_min).2⟩

/-- C12 fails as stated: `init` with `thr_corr = 5.0` stores 5, which is
neither 1 nor at most 1. -/
theorem init_thr_corr_counterexample :
    (init 11 5 45 80).thr_corr = 5 ∧ ¬ (init 11 5 45 80).thr_corr ≤ 1 ∧
    (init 11 5 45 80).thr_corr ≠ 1 := by
  refine ⟨rfl, ?_, ?_⟩
  · show ¬ (5 : ℚ) ≤ 1
    norm_num
  · show (5 : ℚ) ≠ 1
    norm_num

/-! ## C13: `perform_match` appends to the list it is given -/

/-- C13, as the code has it: after `init`, on images that hold the template,
`perform_match` raises no error and returns the list it was given followed by
the landmarks of this call; when no pixel of the difference map is a local
maximum above `thr_corr` it returns the list unchanged, hence an empty list if
it was given an empty one.  Whatever the list held before the call is
retained. -/
theorem perform_match_appends (k : Int) (thr_corr : ℚ) (thr_pix_rng thr_pix_min : Int)
    (en : Bool) (corr : Mat Nat → Mat Nat → Int → Int → ℚ)
    (bf : Mat (Vec3 Nat) → Mat (Vec3 Nat)) (rsrc_bgr : Mat (Vec3 Nat)) (rsrc : Mat Nat)
    (rinfo : List landmark_info_t)
    (hrows : (init k thr_corr thr_pix_rng thr_pix_min).kdim ≤ rsrc.rows)
    (hcols : (init k thr_corr thr_pix_rng thr_pix_min).kdim ≤ rsrc.cols)
    (hbr : rsrc.rows ≤ rsrc_bgr.rows) (hbc : rsrc.cols ≤ rsrc_bgr.cols) :
    ∃ rtmatch new,
      perform_match (set_color_id_enabled (init k thr_corr thr_pix_rng thr_pix_min) en)
        corr bf rsrc_bgr rsrc rinfo = some (rtmatch, rinfo ++ new) ∧
      ((∀ p : Point, ¬ (rtmatch.inside p.y p.x ∧ thr_corr < rtmatch.data p.y p.x ∧
          ∀ r c, rtmatch.inside r c → |r - p.y| ≤ 1 → |c - p.x| ≤ 1 →
            rtmatch.data r c ≤ rtmatch.data p.y p.x)) →
        new = []) := by
  obtain ⟨rt, out, h, -, -⟩ := perform_match_total k thr_corr thr_pix_rng thr_pix_min en corr bf
    rsrc_bgr rsrc rinfo hrows hcols hbr hbc
  obtain ⟨t0, t1, d, -, -, -, -, hout, -⟩ := perform_match_some _ corr bf rsrc_bgr rsrc _ _ _ h
  refine ⟨rt, _, by rw [h, hout], ?_⟩
  intro hno
  have hnil : maxima_pts (set_color_id_enabled (init k thr_corr thr_pix_rng thr_pix_min) en) rt
      = [] := by
    apply List.eq_nil_iff_forall_not_mem.2
    intro p hp
    exact hno p ((mem_maxima_pts _ rt p).1 hp)
  rw [hnil]
  rfl

/-- C13 on the flat 9 x 9 image of gray level 50, where nothing exceeds
`thr_corr = 1/2`, with an empty list. -/
theorem perform_match_appends_witness :
    ∃ rtmatch new,
      perform_match (set_color_id_enabled (init 9 (1 / 2) 45 80) true)
        corr_flat id flat_bgr flat_gray [] = some (rtmatch, [] ++ new) ∧
      ((∀ p : Point, ¬ (rtmatch.inside p.y p.x ∧ (1 / 2 : ℚ) < rtmatch.data p.y p.x ∧
          ∀ r c, rtmatch.inside r c → |r - p.y| ≤ 1 → |c - p.x| ≤ 1 →
            rtmatch.data r c ≤ rtmatch.data p.y p.x)) →
        new = []) :=
  perform_match_appends 9 (1 / 2) 45 80 true corr_flat id flat_bgr flat_gray []
    (by decide) (by decide) (by decide) (by decide)

/-- C13 fails as stated: a first call on the rendering of `PATTERN_A` returns
one landmark; a second call, on a flat image without any maximum and with the
list of the first call, returns that landmark again, although that image alone
gives none. -/
theorem perform_match_retains_counterexample :
    (perform_match demo_state corr_demo id demo_bgr demo_gray []).map Prod.snd =
      some [⟨⟨4, 4⟩, 2, 226, 0, 0, 1⟩] ∧
    (perform_match demo_state corr_flat id flat_bgr flat_gray
      [⟨⟨4, 4⟩, 2, 226, 0, 0, 1⟩]).map Prod.snd = some [⟨⟨4, 4⟩, 2, 226, 0, 0, 1⟩] ∧
    (perform_match demo_state corr_flat id flat_bgr flat_gray []).map Prod.snd = some [] := by
  refine ⟨by decide!, by decide!, by decide!⟩

/-! ## C17: the landmarks come in scan order -/

theorem upto_pairwise (n : Int) : (upto n).Pairwise (fun a b => a < b) := by
  unfold upto
  apply List.Pairwise.map _ _ (List.pairwise_lt_range n.toNat)
  intro a b hab
  exact Int.ofNat_lt.2 hab

theorem findNonZero_pairwise (m : Mat Nat) : (findNonZero m).Pairwise scan_before := by
  unfold findNonZero
  rw [List.pairwise_flatMap]
  constructor
  · intro r _
    apply List.Pairwise.map _ _ (List.Pairwise.filter _ (upto_pairwise m.cols))
    intro a b hab
    exact Or.inr ⟨rfl, hab⟩
  · apply List.Pairwise.imp _ (upto_pairwise m.rows)
    intro r1 r2 hr p hp q hq
    obtain ⟨c1, -, rfl⟩ := List.mem_map.1 hp
    obtain ⟨c2, -, rfl⟩ := List.mem_map.1 hq
    exact Or.inl hr

/-- The maxima are examined row by row, and from left to right in a row. -/
theorem maxima_pts_pairwise (st : State) (rtmatch : Mat ℚ) :
    (maxima_pts st rtmatch).Pairwise scan_before :=
  findNonZero_pairwise _

/-- Every landmark appended for the maximum `p` has the position of `p` moved
by the template offset. -/
theorem appended_at_position (st : State) (bf : Mat (Vec3 Nat) → Mat (Vec3 Nat))
    (rsrc_bgr : Mat (Vec3 Nat)) (rsrc : Mat Nat) (t0 t1 : Mat ℚ) (p : Point)
    (lm : landmark_info_t) (h : lm ∈ appended_at st bf rsrc_bgr rsrc t0 t1 p) :
    lm.position = ⟨p.x + st.tmpl_offset.x, p.y + st.tmpl_offset.y⟩ := by
  obtain ⟨img_roi, img_roi_bgr, -, -, -, -, hcase⟩ :=
    (mem_appended_at st bf rsrc_bgr rsrc t0 t1 p lm).1 h
  rcases hcase with ⟨-, hlm, -⟩ | ⟨-, hlm⟩
  · rw [hlm, (identify_colors_fields st _ _).1]; rfl
  · rw [hlm]; rfl

/-- At most one landmark is appended for a maximum. -/
theorem appended_at_length (st : State) (bf : Mat (Vec3 Nat) → Mat (Vec3 Nat))
    (rsrc_bgr : Mat (Vec3 Nat)) (rsrc : Mat Nat) (t0 t1 : Mat ℚ) (p : Point) :
    (appended_at st bf rsrc_bgr rsrc t0 t1 p).length ≤ 1 := by
  simp only [appended_at, check_maximum]
  cases rsrc.roi ⟨p.x, p.y, st.tmpl_gray_p.cols, st.tmpl_gray_p.rows⟩ with
  | none => simp
  | some img_roi =>
    cases rsrc_bgr.roi ⟨p.x, p.y, st.tmpl_gray_p.cols, st.tmpl_gray_p.rows⟩ with
    | none => simp only []; split_ifs <;> simp
    | some img_roi_bgr => simp only []; split_ifs <;> simp

/-- C17: the landmarks that a successful call of `perform_match` appends are in
scan order of their positions, row by row and from left to right within a row
(strictly increasing in (y, x)), whatever their `diff`; hence no two of them
share a position. -/
theorem perform_match_scan_order (st : State) (corr : Mat Nat → Mat Nat → Int → Int → ℚ)
    (bf : Mat (Vec3 Nat) → Mat (Vec3 Nat)) (rsrc_bgr : Mat (Vec3 Nat)) (rsrc : Mat Nat)
    (rinfo out : List landmark_info_t) (rtmatch : Mat ℚ)
    (h : perform_match st corr bf rsrc_bgr rsrc rinfo = some (rtmatch, out)) :
    ∃ new, out = rinfo ++ new ∧
      new.Pairwise (fun a b => scan_before a.position b.position) ∧
      new.Pairwise (fun a b => a.position ≠ b.position) ∧
      (new.map (fun lm => lm.position)).Nodup := by
  obtain ⟨t0, t1, d, -, -, -, -, hout, -⟩ := perform_match_some st corr bf rsrc_bgr rsrc _ _ _ h
  have hsorted : ((maxima_pts st rtmatch).flatMap
      (appended_at st bf rsrc_bgr rsrc t0 t1)).Pairwise
      (fun a b => scan_before a.position b.position) := by
    rw [List.pairwise_flatMap]
    constructor
    · intro p _
      have hlen := appended_at_length st bf rsrc_bgr rsrc t0 t1 p
      cases hl : appended_at st bf rsrc_bgr rsrc t0 t1 p with
      | nil => exact List.Pairwise.nil
      | cons a t =>
        cases t with
        | nil => exact List.pairwise_singleton _ _
        | cons b u => rw [hl] at hlen; simp at hlen
    · apply List.Pairwise.imp _ (maxima_pts_pairwise st rtmatch)
      intro p q hpq a ha b hb
      rw [appended_at_position st bf rsrc_bgr rsrc t0 t1 p a ha,
        appended_at_position st bf rsrc_bgr rsrc t0 t1 q b hb]
      rcases hpq with hy | ⟨hy, hx⟩
      · exact Or.inl (by simp only; omega)
      · exact Or.inr ⟨by simp only; omega, by simp only; omega⟩
  have hne : ((maxima_pts st rtmatch).flatMap
      (appended_at st bf rsrc_bgr rsrc t0 t1)).Pairwise
      (fun a b => a.position ≠ b.position) := by
    apply List.Pairwise.imp _ hsorted
    intro a b hab heq
    rw [heq] at hab
    rcases hab with hy | ⟨-, hx⟩
    · exact lt_irrefl _ hy
    · exact lt_irrefl _ hx
  refine ⟨_, hout, hsorted, hne, ?_⟩
  unfold List.Nodup
  rw [List.pairwise_map]
  exact hne

/-- C17 on a 9 x 10 image with two maxima in one row: the two landmarks come
from left to right. -/
theorem perform_match_scan_order_witness :
    ∃ new, [(⟨⟨4, 4⟩, 2, 226, 0, 0, 1⟩ : landmark_info_t), ⟨⟨5, 4⟩, 2, 226, 0, 0, 1⟩] =
        [] ++ new ∧
      new.Pairwise (fun a b => scan_before a.position b.position) ∧
      new.Pairwise (fun a b => a.position ≠ b.position) ∧
      (new.map (fun lm => lm.position)).Nodup :=
  (exists_rtmatch (perform_match demo_state corr_demo id wide_bgr wide_gray [])
    [⟨⟨4, 4⟩, 2, 226, 0, 0, 1⟩, ⟨⟨5, 4⟩, 2, 226, 0, 0, 1⟩] (by decide!)).elim
    (fun rt h => perform_match_scan_order demo_state corr_demo id wide_bgr wide_gray [] _ rt h)

/-! ## C19: every access stays inside the images -/

/-- C19: after `init`, on a grayscale image of width `W >= kdim` and height
`H >= kdim` and a colour image of the same size, `perform_match` returns, every
maximum `(x, y)` it examines has `0 <= x <= W - kdim` and `0 <= y <= H - kdim`,
the `kdim x kdim` regions extracted there lie inside both images, the corner
indices 0 and `kdim - 1` lie inside the colour region, and every appended
landmark has `kdim/2 <= position.x <= W - 1 - kdim/2` and
`kdim/2 <= position.y <= H - 1 - kdim/2`. -/
theorem perform_match_in_bounds (k : Int) (thr_corr : ℚ) (thr_pix_rng thr_pix_min : Int)
    (en : Bool) (corr : Mat Nat → Mat Nat → Int → Int → ℚ)
    (bf : Mat (Vec3 Nat) → Mat (Vec3 Nat)) (rsrc_bgr : Mat (Vec3 Nat)) (rsrc : Mat Nat)
    (rinfo : List landmark_info_t)
    (hrows : (init k thr_corr thr_pix_rng thr_pix_min).kdim ≤ rsrc.rows)
    (hcols : (init k thr_corr thr_pix_rng thr_pix_min).kdim ≤ rsrc.cols)
    (hbr : rsrc_bgr.rows = rsrc.rows) (hbc : rsrc_bgr.cols = rsrc.cols) :
    ∃ rtmatch new,
      perform_match (set_color_id_enabled (init k thr_corr thr_pix_rng thr_pix_min) en)
        corr bf rsrc_bgr rsrc rinfo = some (rtmatch, rinfo ++ new) ∧
      (∀ p ∈ maxima_pts
          (set_color_id_enabled (init k thr_corr thr_pix_rng thr_pix_min) en) rtmatch,
        (0 ≤ p.x ∧ p.x ≤ rsrc.cols - (init k thr_corr thr_pix_rng thr_pix_min).kdim ∧
          0 ≤ p.y ∧ p.y ≤ rsrc.rows - (init k thr_corr thr_pix_rng thr_pix_min).kdim) ∧
        (∀ r c, 0 ≤ r → r < (init k thr_corr thr_pix_rng thr_pix_min).kdim →
          0 ≤ c → c < (init k thr_corr thr_pix_rng thr_pix_min).kdim →
          rsrc.inside (p.y + r) (p.x + c) ∧ rsrc_bgr.inside (p.y + r) (p.x + c)) ∧
        (∃ img_roi, rsrc.roi (roi_at
            (set_color_id_enabled (init k thr_corr thr_pix_rng thr_pix_min) en) p) =
              some img_roi ∧
          img_roi.rows = (init k thr_corr thr_pix_rng thr_pix_min).kdim ∧
          img_roi.cols = (init k thr_corr thr_pix_rng thr_pix_min).kdim) ∧
        (∃ img_roi_bgr, rsrc_bgr.roi (roi_at
            (set_color_id_enabled (init k thr_corr thr_pix_rng thr_pix_min) en) p) =
              some img_roi_bgr ∧
          img_roi_bgr.rows = (init k thr_corr thr_pix_rng thr_pix_min).kdim ∧
          img_roi_bgr.cols = (init k thr_corr thr_pix_rng thr_pix_min).kdim ∧
          img_roi_bgr.inside 0 0 ∧
          img_roi_bgr.inside 0 ((init k thr_corr thr_pix_rng thr_pix_min).kdim - 1) ∧
          img_roi_bgr.inside ((init k thr_corr thr_pix_rng thr_pix_min).kdim - 1) 0 ∧
          img_roi_bgr.inside ((init k thr_corr thr_pix_rng thr_pix_min).kdim - 1)
            ((init k thr_corr thr_pix_rng thr_pix_min).kdim - 1))) ∧
      (∀ lm ∈ new,
        (init k thr_corr thr_pix_rng thr_pix_min).kdim / 2 ≤ lm.position.x ∧
        lm.position.x ≤
          rsrc.cols - 1 - (init k thr_corr thr_pix_rng thr_pix_min).kdim / 2 ∧
        (init k thr_corr thr_pix_rng thr_pix_min).kdim / 2 ≤ lm.position.y ∧
        lm.position.y ≤
          rsrc.rows - 1 - (init k thr_corr thr_pix_rng thr_pix_min).kdim / 2) := by
  obtain ⟨rt, out, h, hrr, hrc⟩ := perform_match_total k thr_corr thr_pix_rng thr_pix_min en
    corr bf rsrc_bgr rsrc rinfo hrows hcols (by omega) (by omega)
  obtain ⟨t0, t1, d, -, -, -, -, hout, -⟩ := perform_match_some _ corr bf rsrc_bgr rsrc _ _ _ h
  obtain ⟨hsr, hsc, -, -⟩ := init_tmpl_size k thr_corr thr_pix_rng thr_pix_min
  obtain ⟨hk1, hk9, hk15⟩ := init_kdim_bounds k thr_corr thr_pix_rng thr_pix_min
  have hp : (set_color_id_enabled (init k thr_corr thr_pix_rng thr_pix_min) en).tmpl_gray_p =
      (init k thr_corr thr_pix_rng thr_pix_min).tmpl_gray_p := rfl
  have hbound : ∀ p ∈ maxima_pts
      (set_color_id_enabled (init k thr_corr thr_pix_rng thr_pix_min) en) rt,
      0 ≤ p.x ∧ p.x ≤ rsrc.cols - (init k thr_corr thr_pix_rng thr_pix_min).kdim ∧
      0 ≤ p.y ∧ p.y ≤ rsrc.rows - (init k thr_corr thr_pix_rng thr_pix_min).kdim := by
    intro p hpm
    obtain ⟨⟨i1, i2, i3, i4⟩, -⟩ := (mem_maxima_pts _ _ p).1 hpm
    rw [hrr] at i2
    rw [hrc] at i4
    exact ⟨i3, by omega, i1, by omega⟩
  refine ⟨rt, _, by rw [h, hout], ?_, ?_⟩
  · intro p hpm
    obtain ⟨b1, b2, b3, b4⟩ := hbound p hpm
    refine ⟨⟨b1, b2, b3, b4⟩, ?_, ?_, ?_⟩
    · intro r c hr0 hr1 hc0 hc1
      refine ⟨⟨by omega, by omega, by omega, by omega⟩, ⟨by omega, by omega, by omega, by omega⟩⟩
    · refine ⟨⟨(init k thr_corr thr_pix_rng thr_pix_min).kdim,
        (init k thr_corr thr_pix_rng thr_pix_min).kdim,
        fun r c => rsrc.data (p.y + r) (p.x + c)⟩, ?_, rfl, rfl⟩
      unfold Mat.roi roi_at
      rw [hp, hsr, hsc]
      simp only []
      rw [if_pos (by omega)]
    · refine ⟨⟨(init k thr_corr thr_pix_rng thr_pix_min).kdim,
        (init k thr_corr thr_pix_rng thr_pix_min).kdim,
        fun r c => rsrc_bgr.data (p.y + r) (p.x + c)⟩, ?_, rfl, rfl, ?_, ?_, ?_, ?_⟩
      · unfold Mat.roi roi_at
        rw [hp, hsr, hsc]
        simp only []
        rw [if_pos (by omega)]
      · exact ⟨by omega, by simp only; omega, by omega, by simp only; omega⟩
      · exact ⟨by omega, by simp only; omega, by omega, by simp only; omega⟩
      · exact ⟨by omega, by simp only; omega, by omega, by simp only; omega⟩
      · exact ⟨by omega, by simp only; omega, by omega, by simp only; omega⟩
  · intro lm hlm
    obtain ⟨p, hpm, hlmp⟩ := List.mem_flatMap.1 hlm
    obtain ⟨b1, b2, b3, b4⟩ := hbound p hpm
    have hpos := appended_at_position _ bf rsrc_bgr rsrc t0 t1 p lm hlmp
    have hoff : Int.tdiv (init k thr_corr thr_pix_rng thr_pix_min).kdim 2 =
        (init k thr_corr thr_pix_rng thr_pix_min).kdim / 2 := by
      rw [tdiv_two, if_pos (by omega)]
    have hox : (set_color_id_enabled (init k thr_corr thr_pix_rng thr_pix_min) en).tmpl_offset.x
        = (init k thr_corr thr_pix_rng thr_pix_min).kdim / 2 := hoff
    have hoy : (set_color_id_enabled (init k thr_corr thr_pix_rng thr_pix_min) en).tmpl_offset.y
        = (init k thr_corr thr_pix_rng thr_pix_min).kdim / 2 := hoff
    rw [hpos, hox, hoy]
    simp only []
    refine ⟨by omega, by omega, by omega, by omega⟩

/-- C19 on the 9 x 10 image `wide_gray`. -/
theorem perform_match_in_bounds_witness :
    ∃ rtmatch new,
      perform_match (set_color_id_enabled (init 9 (1 / 2) 45 80) true)
        corr_demo id wide_bgr wide_gray [] = some (rtmatch, [] ++ new) ∧
      (∀ p ∈ maxima_pts (set_color_id_enabled (init 9 (1 / 2) 45 80) true) rtmatch,
        (0 ≤ p.x ∧ p.x ≤ wide_gray.cols - (init 9 (1 / 2) 45 80).kdim ∧
          0 ≤ p.y ∧ p.y ≤ wide_gray.rows - (init 9 (1 / 2) 45 80).kdim) ∧
        (∀ r c, 0 ≤ r → r < (init 9 (1 / 2) 45 80).kdim →
          0 ≤ c → c < (init 9 (1 / 2) 45 80).kdim →
          wide_gray.inside (p.y + r) (p.x + c) ∧ wide_bgr.inside (p.y + r) (p.x + c)) ∧
        (∃ img_roi, wide_gray.roi (roi_at
            (set_color_id_enabled (init 9 (1 / 2) 45 80) true) p) = some img_roi ∧
          img_roi.rows = (init 9 (1 / 2) 45 80).kdim ∧
          img_roi.cols = (init 9 (1 / 2) 45 80).kdim) ∧
        (∃ img_roi_bgr, wide_bgr.roi (roi_at
            (set_color_id_enabled (init 9 (1 / 2) 45 80) true) p) = some img_roi_bgr ∧
          img_roi_bgr.rows = (init 9 (1 / 2) 45 80).kdim ∧
          img_roi_bgr.cols = (init 9 (1 / 2) 45 80).kdim ∧
          img_roi_bgr.inside 0 0 ∧
          img_roi_bgr.inside 0 ((init 9 (1 / 2) 45 80).kdim - 1) ∧
          img_roi_bgr.inside ((init 9 (1 / 2) 45 80).kdim - 1) 0 ∧
          img_roi_bgr.inside ((init 9 (1 / 2) 45 80).kdim - 1)
            ((init 9 (1 / 2) 45 80).kdim - 1))) ∧
      (∀ lm ∈ new,
        (init 9 (1 / 2) 45 80).kdim / 2 ≤ lm.position.x ∧
        lm.position.x ≤ wide_gray.cols - 1 - (init 9 (1 / 2) 45 80).kdim / 2 ∧
        (init 9 (1 / 2) 45 80).kdim / 2 ≤ lm.position.y ∧
        lm.position.y ≤ wide_gray.rows - 1 - (init 9 (1 / 2) 45 80).kdim / 2) :=
  perform_match_in_bounds 9 (1 / 2) 45 80 true corr_demo id wide_bgr wide_gray []
    (by decide) (by decide) (by decide) (by decide)

/-! ## C18: the class of a corner is its darkest channel -/

/-- The squared distances to two reference vectors differ by twice the
difference of the two channels in which the vectors differ. -/
theorem normL2Sqr_diff (n : Vec3 ℚ) :
    normL2Sqr n (norm_ycm 0) - normL2Sqr n (norm_ycm 1) = 2 * (n.v0 - n.v1) ∧
    normL2Sqr n (norm_ycm 0) - normL2Sqr n (norm_ycm 2) = 2 * (n.v0 - n.v2) ∧
    normL2Sqr n (norm_ycm 1) - normL2Sqr n (norm_ycm 2) = 2 * (n.v1 - n.v2) := by
  simp only [normL2Sqr, norm_ycm_zero, norm_ycm_one, norm_ycm_two]
  refine ⟨?_, ?_, ?_⟩ <;> ring

theorem minMaxLoc3_attained (p : Vec3 ℚ) :
    ((minMaxLoc3 p).1 = p.v0 ∨ (minMaxLoc3 p).1 = p.v1 ∨ (minMaxLoc3 p).1 = p.v2) ∧
    ((minMaxLoc3 p).2 = p.v0 ∨ (minMaxLoc3 p).2 = p.v1 ∨ (minMaxLoc3 p).2 = p.v2) := by
  simp only [minMaxLoc3]
  constructor
  · rcases min_choice p.v0 (min p.v1 p.v2) with h | h
    · exact Or.inl h
    · rcases min_choice p.v1 p.v2 with h2 | h2
      · exact Or.inr (Or.inl (h.trans h2))
      · exact Or.inr (Or.inr (h.trans h2))
  · rcases max_choice p.v0 (max p.v1 p.v2) with h | h
    · exact Or.inl h
    · rcases max_choice p.v1 p.v2 with h2 | h2
      · exact Or.inr (Or.inl (h.trans h2))
      · exact Or.inr (Or.inr (h.trans h2))

/-- With a channel range above `DBL_EPSILON`, min-max normalization is
`(x - min) / (max - min)` on each channel. -/
theorem normalize_minmax_of_range (p : Vec3 ℚ)
    (h : DBL_EPSILON < (minMaxLoc3 p).2 - (minMaxLoc3 p).1) :
    (normalize_minmax p).v0 = (p.v0 - (minMaxLoc3 p).1) / ((minMaxLoc3 p).2 - (minMaxLoc3 p).1) ∧
    (normalize_minmax p).v1 = (p.v1 - (minMaxLoc3 p).1) / ((minMaxLoc3 p).2 - (minMaxLoc3 p).1) ∧
    (normalize_minmax p).v2 = (p.v2 - (minMaxLoc3 p).1) / ((minMaxLoc3 p).2 - (minMaxLoc3 p).1) := by
  have hpos : 0 < (minMaxLoc3 p).2 - (minMaxLoc3 p).1 :=
    lt_trans (by norm_num [DBL_EPSILON]) h
  have hne : (minMaxLoc3 p).2 - (minMaxLoc3 p).1 ≠ 0 := ne_of_gt hpos
  simp only [normalize_minmax, if_pos h]
  refine ⟨?_, ?_, ?_⟩ <;> field_simp <;> ring

/-- A pixel that passes the gate has a single darkest channel, and its
normalized channels are ordered like its raw channels. -/
theorem passes_gate_order (p : Vec3 Nat) (hg : passes_gate p) :
    ((p.v0 < p.v1 ∧ p.v0 < p.v2) ∨ (p.v1 < p.v0 ∧ p.v1 < p.v2) ∨
      (p.v2 < p.v0 ∧ p.v2 < p.v1)) ∧
    ((normalize_minmax p.toFloat).v0 < (normalize_minmax p.toFloat).v1 ↔ p.v0 < p.v1) ∧
    ((normalize_minmax p.toFloat).v1 < (normalize_minmax p.toFloat).v0 ↔ p.v1 < p.v0) ∧
    ((normalize_minmax p.toFloat).v0 < (normalize_minmax p.toFloat).v2 ↔ p.v0 < p.v2) ∧
    ((normalize_minmax p.toFloat).v2 < (normalize_minmax p.toFloat).v0 ↔ p.v2 < p.v0) ∧
    ((normalize_minmax p.toFloat).v1 < (normalize_minmax p.toFloat).v2 ↔ p.v1 < p.v2) ∧
    ((normalize_minmax p.toFloat).v2 < (normalize_minmax p.toFloat).v1 ↔ p.v2 < p.v1) := by
  obtain ⟨hsum, hrng⟩ := hg
  simp only [norm_sum, chan_range] at hsum hrng
  have heps : DBL_EPSILON < (minMaxLoc3 p.toFloat).2 - (minMaxLoc3 p.toFloat).1 :=
    lt_trans (by norm_num [DBL_EPSILON]) hrng
  obtain ⟨e0, e1, e2⟩ := normalize_minmax_of_range p.toFloat heps
  obtain ⟨hmn, hmx⟩ := minMaxLoc3_attained p.toFloat
  obtain ⟨l0, l1, l2, u0, u1, u2⟩ := minMaxLoc3_bounds p.toFloat
  rw [e0, e1, e2] at hsum
  simp only [e0, e1, e2]
  clear e0 e1 e2
  obtain ⟨x0, x1, x2⟩ := p
  simp only [Vec3.toFloat] at hsum hrng heps hmn hmx l0 l1 l2 u0 u1 u2 ⊢
  generalize (minMaxLoc3 (⟨(x0 : ℚ), (x1 : ℚ), (x2 : ℚ)⟩ : Vec3 ℚ)).1 = mn at *
  generalize (minMaxLoc3 (⟨(x0 : ℚ), (x1 : ℚ), (x2 : ℚ)⟩ : Vec3 ℚ)).2 = mx at *
  have hpos : 0 < mx - mn := by linarith
  have hsum2 : 12 / 10 * (mx - mn) < ((x0 : ℚ) - mn) + ((x1 : ℚ) - mn) + ((x2 : ℚ) - mn) := by
    have h3 : ((x0 : ℚ) - mn) / (mx - mn) + ((x1 : ℚ) - mn) / (mx - mn) +
        ((x2 : ℚ) - mn) / (mx - mn) =
        (((x0 : ℚ) - mn) + ((x1 : ℚ) - mn) + ((x2 : ℚ) - mn)) / (mx - mn) := by
      field_simp
    rw [h3, lt_div_iff₀ hpos] at hsum
    exact hsum
  have hdiv : ∀ x y : ℚ, (x - mn) / (mx - mn) < (y - mn) / (mx - mn) ↔ x < y := by
    intro x y
    rw [div_lt_div_iff_of_pos_right hpos]
    constructor <;> intro h <;> linarith
  refine ⟨?_, ?_, ?_, ?_, ?_, ?_, ?_⟩
  · have hq : (((x0 : ℚ) < x1 ∧ (x0 : ℚ) < x2) ∨ ((x1 : ℚ) < x0 ∧ (x1 : ℚ) < x2) ∨
        ((x2 : ℚ) < x0 ∧ (x2 : ℚ) < x1)) := by
      rcases hmn with h | h | h <;> rcases hmx with h' | h' | h' <;>
        first
        | (exfalso; linarith)
        | (left; exact ⟨by linarith, by linarith⟩)
        | (right; left; exact ⟨by linarith, by linarith⟩)
        | (right; right; exact ⟨by linarith, by linarith⟩)
    simpa only [Nat.cast_lt] using hq
  · rw [hdiv]; exact Nat.cast_lt
  · rw [hdiv]; exact Nat.cast_lt
  · rw [hdiv]; exact Nat.cast_lt
  · rw [hdiv]; exact Nat.cast_lt
  · rw [hdiv]; exact Nat.cast_lt
  · rw [hdiv]; exact Nat.cast_lt

/-- For a pixel that passes the gate, the nearest reference vector is the one
of the darkest channel, and the two other reference vectors are strictly
farther. -/
theorem nearest_ycm_darkest (p : Vec3 Nat) (hg : passes_gate p) :
    nearest_ycm (normalize_minmax p.toFloat) = darkest_channel p ∧
    ∀ j : Int, 0 ≤ j → j ≤ 2 → j ≠ darkest_channel p →
      normL2Sqr (normalize_minmax p.toFloat) (norm_ycm (darkest_channel p)) <
        normL2Sqr (normalize_minmax p.toFloat) (norm_ycm j) := by
  obtain ⟨huniq, o01, o10, o02, o20, o12, o21⟩ := passes_gate_order p hg
  obtain ⟨f01, f02, f12⟩ := normL2Sqr_diff (normalize_minmax p.toFloat)
  unfold nearest_ycm darkest_channel
  rcases huniq with ⟨a, b⟩ | ⟨a, b⟩ | ⟨a, b⟩
  · have h1 := o01.2 a
    have h2 := o02.2 b
    rw [if_pos ⟨by linarith, by linarith⟩, if_pos ⟨a, b⟩]
    refine ⟨rfl, ?_⟩
    intro j hj0 hj2 hne
    interval_cases j
    · exact absurd rfl hne
    · linarith
    · linarith
  · have h1 := o10.2 a
    have h2 := o12.2 b
    rw [if_neg (fun h => by linarith [h.1]), if_pos (by linarith),
      if_neg (fun h => by omega), if_pos ⟨a, b⟩]
    refine ⟨rfl, ?_⟩
    intro j hj0 hj2 hne
    interval_cases j
    · linarith
    · exact absurd rfl hne
    · linarith
  · have h1 := o20.2 a
    have h2 := o21.2 b
    rw [if_neg (fun h => by linarith [h.2]), if_neg (by linarith),
      if_neg (fun h => by omega), if_neg (fun h => by omega)]
    refine ⟨rfl, ?_⟩
    intro j hj0 hj2 hne
    interval_cases j
    · linarith
    · linarith
    · exact absurd rfl hne

/-- C18: a corner pixel (B, G, R) that passes the gate of `identify_colors` has
a single darkest channel, and `identify_colors` assigns it the index of that
channel: 0 when B is the minimum, 1 when G is, 2 when R is.  Every other
reference vector is strictly farther than the assigned one, so no tie is ever
decided by the order of the loop. -/
theorem identify_colors_darkest (p : Vec3 Nat) (hg : passes_gate p) :
    ((p.v0 < p.v1 ∧ p.v0 < p.v2) ∨ (p.v1 < p.v0 ∧ p.v1 < p.v2) ∨
      (p.v2 < p.v0 ∧ p.v2 < p.v1)) ∧
    ((p.v0 < p.v1 ∧ p.v0 < p.v2) → nearest_ycm (normalize_minmax p.toFloat) = 0) ∧
    ((p.v1 < p.v0 ∧ p.v1 < p.v2) → nearest_ycm (normalize_minmax p.toFloat) = 1) ∧
    ((p.v2 < p.v0 ∧ p.v2 < p.v1) → nearest_ycm (normalize_minmax p.toFloat) = 2) ∧
    (∀ j : Int, 0 ≤ j → j ≤ 2 → j ≠ nearest_ycm (normalize_minmax p.toFloat) →
      normL2Sqr (normalize_minmax p.toFloat)
          (norm_ycm (nearest_ycm (normalize_minmax p.toFloat))) <
        normL2Sqr (normalize_minmax p.toFloat) (norm_ycm j)) ∧
    (∀ (st : State) (rimg : Mat (Vec3 Nat)) (rinfo : landmark_info_t),
      (sample_corners st rimg rinfo).1 = p → passes_gate (sample_corners st rimg rinfo).2 →
      (identify_colors st rimg rinfo).c0 = darkest_channel p) ∧
    (∀ (st : State) (rimg : Mat (Vec3 Nat)) (rinfo : landmark_info_t),
      (sample_corners st rimg rinfo).2 = p → passes_gate (sample_corners st rimg rinfo).1 →
      (identify_colors st rimg rinfo).c1 = darkest_channel p) := by
  obtain ⟨huniq, -⟩ := passes_gate_order p hg
  obtain ⟨hnear, hstrict⟩ := nearest_ycm_darkest p hg
  refine ⟨huniq, ?_, ?_, ?_, ?_, ?_, ?_⟩
  · intro h
    rw [hnear]
    unfold darkest_channel
    rw [if_pos h]
  · intro h
    rw [hnear]
    unfold darkest_channel
    rw [if_neg (fun h' => by omega), if_pos h]
  · intro h
    rw [hnear]
    unfold darkest_channel
    rw [if_neg (fun h' => by omega), if_neg (fun h' => by omega)]
  · rw [hnear]
    exact hstrict
  · intro st rimg rinfo h1 h2
    rw [identify_colors_eq, h1, if_pos ⟨hg, h2⟩]
    exact hnear
  · intro st rimg rinfo h1 h2
    rw [identify_colors_eq, h1, if_pos ⟨h2, hg⟩]
    exact hnear

/-- C18 on the yellow pixel (0, 255, 255): it passes the gate, B is its
darkest channel and its class is 0. -/
theorem identify_colors_darkest_witness :
    passes_gate ⟨0, 255, 255⟩ ∧
    nearest_ycm (normalize_minmax (⟨0, 255, 255⟩ : Vec3 Nat).toFloat) = 0 :=
  ⟨by decide!, (identify_colors_darkest ⟨0, 255, 255⟩ (by decide!)).2.1 (by decide)⟩

/-! ## C14: the six presets are told apart -/

theorem clean_corners_all :
    ∀ P ∈ color_presets, ∀ k ∈ template_sizes, clean_corners_ok P k := by
  decide!

/-- C14: for each colour preset `PATTERN_A` .. `PATTERN_F` and each size `k` in
{9, 11, 13, 15}, `identify_colors` with `kdim = k`, called with a positive
`diff` on the `k x k` rendering of the preset, gives `c0` the hue of the
quadrant `c01` and `c1` the hue of the quadrant `c10` (yellow 0, magenta 1,
cyan 2): A -> (0,1), B -> (0,2), C -> (1,0), D -> (1,2), E -> (2,0),
F -> (2,1); the six results are pairwise distinct and each has `c0 != c1`. -/
theorem identify_colors_presets (P : grid_colors_t) (hP : P ∈ color_presets)
    (k : Int) (hk : k ∈ template_sizes) (st : State) (rinfo : landmark_info_t)
    (hkdim : st.kdim = k) (hdiff : 0 < rinfo.diff) :
    ((identify_colors st (create_template_image k P) rinfo).c0 = hue_index P.c01 ∧
      (identify_colors st (create_template_image k P) rinfo).c1 = hue_index P.c10 ∧
      (identify_colors st (create_template_image k P) rinfo).c0 ≠
        (identify_colors st (create_template_image k P) rinfo).c1) ∧
    (color_presets.map (fun Q => (hue_index Q.c01, hue_index Q.c10)) =
      [(0, 1), (0, 2), (1, 0), (1, 2), (2, 0), (2, 1)]) ∧
    (color_presets.map (fun Q => (hue_index Q.c01, hue_index Q.c10))).Nodup := by
  obtain ⟨g0, g1, n0, n1⟩ := clean_corners_all P hP k hk
  have hs : sample_corners st (create_template_image k P) rinfo =
      ((create_template_image k P).data 0 (k - 1), (create_template_image k P).data (k - 1) 0) := by
    unfold sample_corners
    rw [if_pos hdiff, hkdim]
  have e0 : (identify_colors st (create_template_image k P) rinfo).c0 = hue_index P.c01 := by
    rw [identify_colors_eq, hs, if_pos ⟨g0, g1⟩]
    exact n0
  have e1 : (identify_colors st (create_template_image k P) rinfo).c1 = hue_index P.c10 := by
    rw [identify_colors_eq, hs, if_pos ⟨g0, g1⟩]
    exact n1
  refine ⟨⟨e0, e1, ?_⟩, by decide, by decide⟩
  rw [e0, e1]
  have hne : ∀ Q ∈ color_presets, hue_index Q.c01 ≠ hue_index Q.c10 := by decide
  exact hne P hP

/-- C14 for `PATTERN_A` at `k = 9`: the result is (0, 1). -/
theorem identify_colors_presets_witness :
    (identify_colors demo_state (create_template_image 9 PATTERN_A) demo_info).c0 = 0 ∧
    (identify_colors demo_state (create_template_image 9 PATTERN_A) demo_info).c1 = 1 ∧
    (identify_colors demo_state (create_template_image 9 PATTERN_A) demo_info).c0 ≠
      (identify_colors demo_state (create_template_image 9 PATTERN_A) demo_info).c1 :=
  (identify_colors_presets PATTERN_A (by decide) 9 (by decide) demo_state demo_info
    (by decide) (by decide!)).1

/-! ## C15: the pixels of `create_template_image` -/

theorem rectangle_data (img : Mat (Vec3 Nat)) (rec : Rect) (color : Vec3 ℚ) (r c : Int)
    (hw : 0 < rec.width) (hh : 0 < rec.height) :
    (rectangle img rec color).data r c =
      if rec.x ≤ c ∧ c ≤ rec.x + rec.width - 1 ∧ rec.y ≤ r ∧ r ≤ rec.y + rec.height - 1
      then scalarToRaw color else img.data r c := by
  unfold rectangle
  rw [if_pos ⟨hw, hh⟩]

theorem line_data (img : Mat (Vec3 Nat)) (pt1 pt2 : Point) (color : Vec3 ℚ) (r c : Int)
    (h : pt1.x = pt2.x ∨ pt1.y = pt2.y) :
    (line img pt1 pt2 color).data r c =
      if (min pt1.x pt2.x) ≤ c ∧ c ≤ (max pt1.x pt2.x) ∧ (min pt1.y pt2.y) ≤ r ∧
          r ≤ (max pt1.y pt2.y)
      then scalarToRaw color else img.data r c := by
  unfold line
  rw [if_pos h]

/-- The pixels of `create_template_image` for an odd `k = 2 h + 1 >= 3`, as
the chain of the drawing calls, the last one first. -/
theorem create_template_image_data (k h : Int) (rcolors : grid_colors_t) (r c : Int)
    (hk : k = 2 * h + 1) (hh : 1 ≤ h) :
    (create_template_image k rcolors).data r c =
      if (min h h) ≤ c ∧ c ≤ (max h h) ∧ (min h h) ≤ r ∧ r ≤ (max h h) then
        scalarToRaw ((((BGR_COLORS rcolors.c00).add (BGR_COLORS rcolors.c01)).add
          (BGR_COLORS rcolors.c11)).add (BGR_COLORS rcolors.c10) |>.divBy 4)
      else if (min 0 h) ≤ c ∧ c ≤ (max 0 h) ∧ (min h h) ≤ r ∧ r ≤ (max h h) then
        scalarToRaw (((BGR_COLORS rcolors.c10).add (BGR_COLORS rcolors.c00)).divBy 2)
      else if (min h h) ≤ c ∧ c ≤ (max h h) ∧ (min h (k - 1)) ≤ r ∧ r ≤ (max h (k - 1)) then
        scalarToRaw (((BGR_COLORS rcolors.c11).add (BGR_COLORS rcolors.c10)).divBy 2)
      else if (min h (k - 1)) ≤ c ∧ c ≤ (max h (k - 1)) ∧ (min h h) ≤ r ∧ r ≤ (max h h) then
        scalarToRaw (((BGR_COLORS rcolors.c01).add (BGR_COLORS rcolors.c11)).divBy 2)
      else if (min h h) ≤ c ∧ c ≤ (max h h) ∧ (min 0 h) ≤ r ∧ r ≤ (max 0 h) then
        scalarToRaw (((BGR_COLORS rcolors.c00).add (BGR_COLORS rcolors.c01)).divBy 2)
      else if 0 ≤ c ∧ c ≤ 0 + h - 1 ∧ h + 1 ≤ r ∧ r ≤ h + 1 + h - 1 then
        scalarToRaw (BGR_COLORS rcolors.c10)
      else if h ≤ c ∧ c ≤ h + (k - 1) - 1 ∧ h ≤ r ∧ r ≤ h + (k - 1) - 1 then
        scalarToRaw (BGR_COLORS rcolors.c11)
      else if h + 1 ≤ c ∧ c ≤ h + 1 + h - 1 ∧ 0 ≤ r ∧ r ≤ 0 + h - 1 then
        scalarToRaw (BGR_COLORS rcolors.c01)
      else if 0 ≤ c ∧ c ≤ 0 + h - 1 ∧ 0 ≤ r ∧ r ≤ 0 + h - 1 then
        scalarToRaw (BGR_COLORS rcolors.c00)
      else ⟨0, 0, 0⟩ := by
  have hdiv : Int.tdiv k 2 = h := by
    rw [tdiv_two, if_pos (by omega)]
    omega
  have h1 : (0 : Int) < h := by omega
  have h2 : (0 : Int) < k - 1 := by omega
  simp only [create_template_image, hdiv, line, rectangle, Mat.zeros, h1, h2, and_self,
    if_true, true_or, or_true]

/-- The pixel that a drawing routine writes for a colour of `BGR_COLORS` has
the channels of that colour. -/
theorem scalarToRaw_BGR_COLORS (c : bgr_t) : (scalarToRaw (BGR_COLORS c)).toFloat = BGR_COLORS c := by
  cases c <;> decide!

/-- C15: for every grid pattern and every odd `k >= 3`, with `h = k/2`,
`create_template_image` returns a `k x k` image whose pixel at column `x`, row
`y` is `c00` for `x < h, y < h`; `c01` for `x > h, y < h`; `c11` for
`x > h, y > h`; `c10` for `x < h, y > h`; the average of `c00` and `c01` for
`x = h, y < h`; of `c01` and `c11` for `x > h, y = h`; of `c11` and `c10` for
`x = h, y > h`; of `c10` and `c00` for `x < h, y = h`; and the average of the
four colours at `(h, h)`.  A colour is written as the 8-bit pixel
`scalarToRaw` of it, which for an average rounds each channel to the nearest
integer. -/
theorem create_template_image_pixels (rcolors : grid_colors_t) (k : Int)
    (hodd : k % 2 = 1) (hk3 : 3 ≤ k) (x y : Int)
    (hx0 : 0 ≤ x) (hx1 : x < k) (hy0 : 0 ≤ y) (hy1 : y < k) :
    ((create_template_image k rcolors).rows = k ∧ (create_template_image k rcolors).cols = k) ∧
    (x < k / 2 ∧ y < k / 2 →
      (create_template_image k rcolors).data y x = scalarToRaw (BGR_COLORS rcolors.c00)) ∧
    (k / 2 < x ∧ y < k / 2 →
      (create_template_image k rcolors).data y x = scalarToRaw (BGR_COLORS rcolors.c01)) ∧
    (k / 2 < x ∧ k / 2 < y →
      (create_template_image k rcolors).data y x = scalarToRaw (BGR_COLORS rcolors.c11)) ∧
    (x < k / 2 ∧ k / 2 < y →
      (create_template_image k rcolors).data y x = scalarToRaw (BGR_COLORS rcolors.c10)) ∧
    (x = k / 2 ∧ y < k / 2 →
      (create_template_image k rcolors).data y x =
        scalarToRaw (((BGR_COLORS rcolors.c00).add (BGR_COLORS rcolors.c01)).divBy 2)) ∧
    (k / 2 < x ∧ y = k / 2 →
      (create_template_image k rcolors).data y x =
        scalarToRaw (((BGR_COLORS rcolors.c01).add (BGR_COLORS rcolors.c11)).divBy 2)) ∧
    (x = k / 2 ∧ k / 2 < y →
      (create_template_image k rcolors).data y x =
        scalarToRaw (((BGR_COLORS rcolors.c11).add (BGR_COLORS rcolors.c10)).divBy 2)) ∧
    (x < k / 2 ∧ y = k / 2 →
      (create_template_image k rcolors).data y x =
        scalarToRaw (((BGR_COLORS rcolors.c10).add (BGR_COLORS rcolors.c00)).divBy 2)) ∧
    (x = k / 2 ∧ y = k / 2 →
      (create_template_image k rcolors).data y x =
        scalarToRaw ((((BGR_COLORS rcolors.c00).add (BGR_COLORS rcolors.c01)).add
          (BGR_COLORS rcolors.c11)).add (BGR_COLORS rcolors.c10) |>.divBy 4)) ∧
    (∀ c : bgr_t, (scalarToRaw (BGR_COLORS c)).toFloat = BGR_COLORS c) := by
  have hk : k = 2 * (k / 2) + 1 := by omega
  have hh : 1 ≤ k / 2 := by omega
  have hd := create_template_image_data k (k / 2) rcolors y x hk hh
  refine ⟨create_template_image_size k rcolors, ?_⟩
  generalize k / 2 = h at hk hh hd ⊢
  generalize scalarToRaw ((((BGR_COLORS rcolors.c00).add (BGR_COLORS rcolors.c01)).add
    (BGR_COLORS rcolors.c11)).add (BGR_COLORS rcolors.c10) |>.divBy 4) = pall at hd ⊢
  generalize scalarToRaw (((BGR_COLORS rcolors.c10).add (BGR_COLORS rcolors.c00)).divBy 2) =
    pw at hd ⊢
  generalize scalarToRaw (((BGR_COLORS rcolors.c11).add (BGR_COLORS rcolors.c10)).divBy 2) =
    ps at hd ⊢
  generalize scalarToRaw (((BGR_COLORS rcolors.c01).add (BGR_COLORS rcolors.c11)).divBy 2) =
    pe at hd ⊢
  generalize scalarToRaw (((BGR_COLORS rcolors.c00).add (BGR_COLORS rcolors.c01)).divBy 2) =
    pn at hd ⊢
  generalize scalarToRaw (BGR_COLORS rcolors.c10) = p10 at hd ⊢
  generalize scalarToRaw (BGR_COLORS rcolors.c11) = p11 at hd ⊢
  generalize scalarToRaw (BGR_COLORS rcolors.c01) = p01 at hd ⊢
  generalize scalarToRaw (BGR_COLORS rcolors.c00) = p00 at hd ⊢
  generalize (create_template_image k rcolors).data y x = px at hd ⊢
  subst hd
  refine ⟨?_, ?_, ?_, ?_, ?_, ?_, ?_, ?_, ?_, scalarToRaw_BGR_COLORS⟩
  all_goals
    intro hc
    repeat (first | rw [if_pos (by omega)] | rw [if_neg (by omega)])

/-- C15 on the 9 x 9 rendering of `PATTERN_A`: the pixel at column 8, row 0
lies in the top-right quadrant and is yellow. -/
theorem create_template_image_pixels_witness :
    (create_template_image 9 PATTERN_A).data 0 8 = scalarToRaw (BGR_COLORS bgr_t.YELLOW) :=
  (create_template_image_pixels PATTERN_A 9 (by decide) (by decide) 8 0 (by decide) (by decide)
    (by decide) (by decide)).2.2.1 ⟨by decide, by decide⟩

/-! ## C16: the negative template -/

theorem mem_template_sizes (K : Int) (hodd : K % 2 = 1) (h9 : 9 ≤ K) (h15 : K ≤ 15) :
    K ∈ template_sizes := by
  have h : K = 9 ∨ K = 11 ∨ K = 13 ∨ K = 15 := by omega
  rcases h with rfl | rfl | rfl | rfl <;> decide

/-- For each size that `init` can store, the rotated grayscale rendering of
`PATTERN_0` and the grayscale rendering of `PATTERN_1` have the same pixels. -/
theorem rotated_pattern_0 :
    ∀ K ∈ template_sizes, ∀ r ∈ upto K, ∀ c ∈ upto K,
      (rotate_90_clockwise (cvtColor_BGR2GRAY (create_template_image K PATTERN_0))).data r c =
        (cvtColor_BGR2GRAY (create_template_image K PATTERN_1)).data r c := by
  decide!

/-- C16: after `init` with any `k`, both templates are `kdim x kdim`, the
positive one is the grayscale rendering of `PATTERN_0`, the negative one is the
positive one rotated by 90 degrees clockwise, `n[r][c] = p[kdim-1-c][r]` for
all `r` and `c`, and the negative one is pixel for pixel the grayscale
rendering of `PATTERN_1` at the same `kdim`. -/
theorem init_negative_template (k : Int) (thr_corr : ℚ) (thr_pix_rng thr_pix_min : Int) :
    (init k thr_corr thr_pix_rng thr_pix_min).tmpl_gray_p =
      cvtColor_BGR2GRAY
        (create_template_image (init k thr_corr thr_pix_rng thr_pix_min).kdim PATTERN_0) ∧
    (init k thr_corr thr_pix_rng thr_pix_min).tmpl_gray_n =
      rotate_90_clockwise (init k thr_corr thr_pix_rng thr_pix_min).tmpl_gray_p ∧
    ((init k thr_corr thr_pix_rng thr_pix_min).tmpl_gray_n.rows =
        (init k thr_corr thr_pix_rng thr_pix_min).kdim ∧
      (init k thr_corr thr_pix_rng thr_pix_min).tmpl_gray_n.cols =
        (init k thr_corr thr_pix_rng thr_pix_min).kdim ∧
      (init k thr_corr thr_pix_rng thr_pix_min).tmpl_gray_p.rows =
        (init k thr_corr thr_pix_rng thr_pix_min).kdim ∧
      (init k thr_corr thr_pix_rng thr_pix_min).tmpl_gray_p.cols =
        (init k thr_corr thr_pix_rng thr_pix_min).kdim) ∧
    (∀ r c : Int, (init k thr_corr thr_pix_rng thr_pix_min).tmpl_gray_n.data r c =
      (init k thr_corr thr_pix_rng thr_pix_min).tmpl_gray_p.data
        ((init k thr_corr thr_pix_rng thr_pix_min).kdim - 1 - c) r) ∧
    ((cvtColor_BGR2GRAY (create_template_image
          (init k thr_corr thr_pix_rng thr_pix_min).kdim PATTERN_1)).rows =
        (init k thr_corr thr_pix_rng thr_pix_min).kdim ∧
      (cvtColor_BGR2GRAY (create_template_image
          (init k thr_corr thr_pix_rng thr_pix_min).kdim PATTERN_1)).cols =
        (init k thr_corr thr_pix_rng thr_pix_min).kdim) ∧
    (∀ r c : Int, 0 ≤ r → r < (init k thr_corr thr_pix_rng thr_pix_min).kdim →
      0 ≤ c → c < (init k thr_corr thr_pix_rng thr_pix_min).kdim →
      (init k thr_corr thr_pix_rng thr_pix_min).tmpl_gray_n.data r c =
        (cvtColor_BGR2GRAY (create_template_image
          (init k thr_corr thr_pix_rng thr_pix_min).kdim PATTERN_1)).data r c) := by
  obtain ⟨hsr, hsc, hnr, hnc⟩ := init_tmpl_size k thr_corr thr_pix_rng thr_pix_min
  obtain ⟨hk1, hk9, hk15⟩ := init_kdim_bounds k thr_corr thr_pix_rng thr_pix_min
  refine ⟨rfl, rfl, ⟨hnr, hnc, hsr, hsc⟩, ?_, ?_, ?_⟩
  · intro r c
    have hrot : (init k thr_corr thr_pix_rng thr_pix_min).tmpl_gray_n.data r c =
        (init k thr_corr thr_pix_rng thr_pix_min).tmpl_gray_p.data
          ((init k thr_corr thr_pix_rng thr_pix_min).tmpl_gray_p.rows - 1 - c) r := rfl
    rw [hrot, hsr]
  · exact ⟨(create_template_image_size _ _).1, (create_template_image_size _ _).2⟩
  · intro r c hr0 hr1 hc0 hc1
    exact rotated_pattern_0 _ (mem_template_sizes _ hk1 hk9 hk15) r ((mem_upto _ _).2 ⟨hr0, hr1⟩)
      c ((mem_upto _ _).2 ⟨hc0, hc1⟩)

/-! ## C20: the grid of `create_landmark_image` -/

/-- C20 fails on the code: in the 96 x 96 grid of `PATTERN_1` (`c00` white,
border 24) the grid pixel at column 47, row 0 lies in the quadrant `c00` and is
left at the zero fill, next to the white pixel at column 46; and in the 97 x 97
grid of `PATTERN_A` the grid pixel at column 96, row 0 lies in the quadrant
`c01` (yellow) and is left at the zero fill, next to the yellow pixel at
column 95. -/
theorem create_landmark_image_gaps :
    (create_landmark_image 1 (1 / 4) PATTERN_1 ⟨128, 128, 128⟩ 96).map
        (fun m => (m.rows, m.cols, m.data 24 (24 + 46), m.data 24 (24 + 47))) =
      some (144, 144, ⟨255, 255, 255⟩, ⟨0, 0, 0⟩) ∧
    scalarToRaw (BGR_COLORS PATTERN_1.c00) = ⟨255, 255, 255⟩ ∧
    (create_landmark_image 1 (1 / 4) PATTERN_A ⟨128, 128, 128⟩ 97).map
        (fun m => (m.rows, m.cols, m.data 24 (24 + 95), m.data 24 (24 + 96))) =
      some (145, 145, ⟨0, 255, 255⟩, ⟨0, 0, 0⟩) ∧
    scalarToRaw (BGR_COLORS PATTERN_A.c01) = ⟨0, 255, 255⟩ := by
  refine ⟨by decide!, by decide!, by decide!, by decide!⟩

/-! ## C11: the range of the correlation map -/

/-- The model `ccoeff_normed` of the correlation coefficient stays in [-1, 1]. -/
theorem ccoeff_normed_range (img templ : Mat Nat) (r c : Int) :
    -1 ≤ ccoeff_normed img templ r c ∧ ccoeff_normed img templ r c ≤ 1 := by
  unfold ccoeff_normed
  simp only []
  split_ifs with h1 h2 h3
  · have ht : 0 < (isqrt (((templ.rows * templ.cols *
          window_sum templ.rows templ.cols
            (fun i j => (img.data (r + i) (c + j) : Int) * (img.data (r + i) (c + j) : Int)) -
          window_sum templ.rows templ.cols (fun i j => (img.data (r + i) (c + j) : Int)) *
            window_sum templ.rows templ.cols (fun i j => (img.data (r + i) (c + j) : Int))) *
        (templ.rows * templ.cols *
          window_sum templ.rows templ.cols
            (fun i j => (templ.data i j : Int) * (templ.data i j : Int)) -
          window_sum templ.rows templ.cols (fun i j => (templ.data i j : Int)) *
            window_sum templ.rows templ.cols (fun i j => (templ.data i j : Int)))).toNat *
        4 ^ 24) : ℚ) / 2 ^ 24 := lt_of_le_of_lt (abs_nonneg _) h1
    have habs := abs_lt.1 h1
    constructor
    · rw [le_div_iff₀ ht]
      linarith [habs.1]
    · rw [div_le_iff₀ ht]
      linarith [habs.2]
  · norm_num
  · norm_num
  · norm_num

theorem matchTemplate_range (corr : Mat Nat → Mat Nat → Int → Int → ℚ)
    (hcorr : ∀ img templ r c, -1 ≤ corr img templ r c ∧ corr img templ r c ≤ 1)
    (img templ : Mat Nat) (t : Mat ℚ) (h : matchTemplate corr img templ = some t) (r c : Int) :
    -1 ≤ t.data r c ∧ t.data r c ≤ 1 := by
  unfold matchTemplate at h
  split_ifs at h
  · cases h
    exact hcorr _ _ r c
  · cases h
    exact hcorr _ _ r c

/-- C11, as the code has it: when `cv::matchTemplate` returns correlation
coefficients in [-1, 1], then after `init`, on a source image of at least
`kdim x kdim` pixels, `perform_match` returns a correlation map of
`(H - kdim + 1) x (W - kdim + 1)` pixels, the absolute difference of the two
coefficients, whose values all lie in [0, 2]. -/
theorem perform_match_map_range (k : Int) (thr_corr : ℚ) (thr_pix_rng thr_pix_min : Int)
    (en : Bool) (corr : Mat Nat → Mat Nat → Int → Int → ℚ)
    (bf : Mat (Vec3 Nat) → Mat (Vec3 Nat)) (rsrc_bgr : Mat (Vec3 Nat)) (rsrc : Mat Nat)
    (rinfo : List landmark_info_t)
    (hcorr : ∀ img templ r c, -1 ≤ corr img templ r c ∧ corr img templ r c ≤ 1)
    (hrows : (init k thr_corr thr_pix_rng thr_pix_min).kdim ≤ rsrc.rows)
    (hcols : (init k thr_corr thr_pix_rng thr_pix_min).kdim ≤ rsrc.cols)
    (hbr : rsrc.rows ≤ rsrc_bgr.rows) (hbc : rsrc.cols ≤ rsrc_bgr.cols) :
    ∃ rtmatch out,
      perform_match (set_color_id_enabled (init k thr_corr thr_pix_rng thr_pix_min) en)
        corr bf rsrc_bgr rsrc rinfo = some (rtmatch, out) ∧
      rtmatch.rows = rsrc.rows - (init k thr_corr thr_pix_rng thr_pix_min).kdim + 1 ∧
      rtmatch.cols = rsrc.cols - (init k thr_corr thr_pix_rng thr_pix_min).kdim + 1 ∧
      (∃ t0 t1,
        matchTemplate corr rsrc (init k thr_corr thr_pix_rng thr_pix_min).tmpl_gray_p = some t0 ∧
        matchTemplate corr rsrc (init k thr_corr thr_pix_rng thr_pix_min).tmpl_gray_n = some t1 ∧
        ∀ r c, rtmatch.data r c = |t0.data r c - t1.data r c|) ∧
      ∀ r c, 0 ≤ rtmatch.data r c ∧ rtmatch.data r c ≤ 2 := by
  obtain ⟨rt, out, h, hrr, hrc⟩ := perform_match_total k thr_corr thr_pix_rng thr_pix_min en
    corr bf rsrc_bgr rsrc rinfo hrows hcols hbr hbc
  obtain ⟨t0, t1, d, h0, h1, hd, hrt, -, -⟩ := perform_match_some _ corr bf rsrc_bgr rsrc _ _ _ h
  have hdata : ∀ r c, rt.data r c = |t0.data r c - t1.data r c| := by
    intro r c
    unfold Mat.sub at hd
    split_ifs at hd
    cases hd
    rw [hrt]
    rfl
  refine ⟨rt, out, h, hrr, hrc, ⟨t0, t1, h0, h1, hdata⟩, ?_⟩
  intro r c
  obtain ⟨a1, a2⟩ := matchTemplate_range corr hcorr _ _ t0 h0 r c
  obtain ⟨b1, b2⟩ := matchTemplate_range corr hcorr _ _ t1 h1 r c
  rw [hdata]
  refine ⟨abs_nonneg _, ?_⟩
  rw [abs_le]
  constructor <;> linarith

/-- C11 with the correlation model `ccoeff_normed`, on the positive template
taken as source image. -/
theorem perform_match_map_range_witness :
    ∃ rtmatch out,
      perform_match (set_color_id_enabled (init 9 (1 / 2) 45 80) true)
        ccoeff_normed id demo_bgr tmpl9 [] = some (rtmatch, out) ∧
      rtmatch.rows = tmpl9.rows - (init 9 (1 / 2) 45 80).kdim + 1 ∧
      rtmatch.cols = tmpl9.cols - (init 9 (1 / 2) 45 80).kdim + 1 ∧
      (∃ t0 t1,
        matchTemplate ccoeff_normed tmpl9 (init 9 (1 / 2) 45 80).tmpl_gray_p = some t0 ∧
        matchTemplate ccoeff_normed tmpl9 (init 9 (1 / 2) 45 80).tmpl_gray_n = some t1 ∧
        ∀ r c, rtmatch.data r c = |t0.data r c - t1.data r c|) ∧
      ∀ r c, 0 ≤ rtmatch.data r c ∧ rtmatch.data r c ≤ 2 :=
  perform_match_map_range 9 (1 / 2) 45 80 true ccoeff_normed id demo_bgr tmpl9 []
    ccoeff_normed_range (by decide) (by decide) (by decide) (by decide)

set_option maxRecDepth 100000 in
/-- C11 fails as stated: with the positive 9 x 9 template as source image, the
coefficient against the positive template is 1 and the one against the
negative template is -154912/154913, so the single value of the correlation
map is 309825/154913, which is above 1. -/
theorem perform_match_map_range_counterexample :
    (tmpl9.rows = 9 ∧ tmpl9.cols = 9) ∧
    (perform_match demo_state ccoeff_normed id demo_bgr tmpl9 []).map
        (fun x => (x.1.rows, x.1.cols, x.1.data 0 0)) = some (1, 1, 309825 / 154913) ∧
    (1 : ℚ) < 309825 / 154913 := by
  refine ⟨⟨by decide, by decide⟩, by decide!, by norm_num⟩

end BGRLandmark
